import Mathlib

/-!
Verification of the technical-analysis / backtesting core of the crypto
dashboard repository.  All numeric values are modelled as rationals (the
source computes with IEEE doubles; every algebraic step is embedded
exactly, and `Math.sqrt` — the only irrational operation — is kept as an
explicit function parameter wherever the source calls it).

Namespace `TA` embeds `src/lib/crypto/technical-analysis.ts` (the file
present as `src/unnamed/part_001`); namespace `Route` embeds the
`runBacktest` helper of `src/app/api/backtest/route.ts`; namespace
`Store` embeds the single-value indicator helpers and `runBacktest` of
`src/lib/store.ts`.
-/

namespace TA

/-- Candle record (`CandleData` in `types.ts`). -/
structure Candle where
  timestamp : ℤ
  open_ : ℚ
  high : ℚ
  low : ℚ
  close : ℚ
  volume : ℚ
  deriving DecidableEq, Repr

/-- `calculateSMA` from `technical-analysis.ts`: entry `i` is `null` for
`i < period - 1`, otherwise the mean of `data.slice(i-period+1, i+1)`. -/
def calculateSMA (data : List ℚ) (period : ℕ) : List (Option ℚ) :=
  (List.range data.length).map (fun i =>
    if i < period - 1 then none
    else some (((data.drop (i + 1 - period)).take period).sum / (period : ℚ)))

/-- Seed of the EMA recurrence: SMA of the first `period` values. -/
def emaSeed (data : List ℚ) (period : ℕ) : ℚ :=
  (data.take period).sum / (period : ℚ)

/-- Value of the running `ema` variable of `calculateEMA` at index `i`
(the source only exposes it for `i ≥ period - 1`). -/
def emaVal (data : List ℚ) (period : ℕ) : ℕ → ℚ
  | 0 => emaSeed data period
  | i + 1 =>
    if i + 2 ≤ period then emaSeed data period
    else (data.getD (i + 1) 0 - emaVal data period i) * (2 / ((period : ℚ) + 1))
          + emaVal data period i

/-- `calculateEMA` from `technical-analysis.ts`: `null` before index
`period - 1`, the seed SMA at `period - 1`, then the recurrence
`ema = (x - ema) * 2/(period+1) + ema`. -/
def calculateEMA (data : List ℚ) (period : ℕ) : List (Option ℚ) :=
  (List.range data.length).map (fun i =>
    if i < period - 1 then none else some (emaVal data period i))

/-- Per-step close changes: entry `j` is `closes[j+1] - closes[j]`. -/
def changes (closes : List ℚ) : List ℚ :=
  List.zipWith (fun a b => a - b) closes.tail closes

/-- Per-step gains of `calculateRSI`: `change > 0 ? change : 0`. -/
def gains (closes : List ℚ) : List ℚ :=
  (changes closes).map (fun c => if 0 < c then c else 0)

/-- Per-step losses of `calculateRSI`: `change < 0 ? Math.abs(change) : 0`. -/
def losses (closes : List ℚ) : List ℚ :=
  (changes closes).map (fun c => if c < 0 then -c else 0)

/-- The `avgGain` computed by `calculateRSI` at index `i` (meaningful for
`i ≥ period`): at `i == period` the simple mean of the first `period`
gains, later `(prevAvgGain * (period-1) + currentGain) / period` where
`prevAvgGain` is the simple mean of `gains.slice(i-period, i)` and
`currentGain = gains[i-1]`. -/
def rsiAvgGain (closes : List ℚ) (period i : ℕ) : ℚ :=
  if i = period then ((gains closes).take period).sum / (period : ℚ)
  else ((((gains closes).drop (i - period)).take period).sum / (period : ℚ) * ((period : ℚ) - 1)
          + (gains closes).getD (i - 1) 0) / (period : ℚ)

/-- The `avgLoss` computed by `calculateRSI` at index `i`; see `rsiAvgGain`. -/
def rsiAvgLoss (closes : List ℚ) (period i : ℕ) : ℚ :=
  if i = period then ((losses closes).take period).sum / (period : ℚ)
  else ((((losses closes).drop (i - period)).take period).sum / (period : ℚ) * ((period : ℚ) - 1)
          + (losses closes).getD (i - 1) 0) / (period : ℚ)

/-- Entry `i` of the array built by `calculateRSI`.  The source pushes
`null` for `i < period` and otherwise — in both the `i == period` and the
`i > period` branch — pushes `100` when the computed `avgLoss` is `0` and
`100 - 100/(1 + avgGain/avgLoss)` otherwise.  (The source also reads
`result[i-1]` into `prevRSI`, but that variable is never used.) -/
def rsiEntry (closes : List ℚ) (period i : ℕ) : Option ℚ :=
  if i < period then none
  else if rsiAvgLoss closes period i = 0 then some 100
  else some (100 - 100 / (1 + rsiAvgGain closes period i / rsiAvgLoss closes period i))

/-- `calculateRSI` from `technical-analysis.ts`. -/
def calculateRSI (closes : List ℚ) (period : ℕ) : List (Option ℚ) :=
  (List.range closes.length).map (rsiEntry closes period)

/-- Modelled from the spec (§4.2, for comparison with the code): the
Wilder-carried average gain — seeded at index `period` with the simple
mean of the first `period` gains, then `avg = (avg*(period-1) + current)
/ period` where the previous average is carried forward from the
preceding index. -/
def specWilderAvgGain (closes : List ℚ) (period : ℕ) : ℕ → ℚ
  | 0 => ((gains closes).take period).sum / (period : ℚ)
  | i + 1 =>
    if i + 1 ≤ period then ((gains closes).take period).sum / (period : ℚ)
    else (specWilderAvgGain closes period i * ((period : ℚ) - 1)
            + (gains closes).getD i 0) / (period : ℚ)

/-- Modelled from the spec (§4.2): the Wilder-carried average loss. -/
def specWilderAvgLoss (closes : List ℚ) (period : ℕ) : ℕ → ℚ
  | 0 => ((losses closes).take period).sum / (period : ℚ)
  | i + 1 =>
    if i + 1 ≤ period then ((losses closes).take period).sum / (period : ℚ)
    else (specWilderAvgLoss closes period i * ((period : ℚ) - 1)
            + (losses closes).getD i 0) / (period : ℚ)

/-- Modelled from the spec (§4.2): RSI from the Wilder-carried averages. -/
def specWilderRSI (closes : List ℚ) (period i : ℕ) : ℚ :=
  if specWilderAvgLoss closes period i = 0 then 100
  else 100 - 100 / (1 + specWilderAvgGain closes period i / specWilderAvgLoss closes period i)

end TA

namespace TA

/-- Result triple of `calculateMACD`. -/
structure MACDArrays where
  macd : List (Option ℚ)
  signal : List (Option ℚ)
  histogram : List (Option ℚ)
  deriving DecidableEq, Repr

/-- Null-respecting pointwise difference used by `calculateMACD` for both
the MACD line (`ema12[i] - ema26[i]`) and the histogram. -/
def optSub (a b : Option ℚ) : Option ℚ :=
  match a, b with
  | some x, some y => some (x - y)
  | _, _ => none

/-- `calculateMACD` from `technical-analysis.ts`: MACD line is
`EMA(12) - EMA(26)` (null while either EMA is null); the signal line is
`calculateEMA(validMacd, 9)` where `validMacd = macdLine.map(v => v ?? 0)`
replaces nulls by `0`; histogram is `macd - signal` where both exist. -/
def calculateMACD (closes : List ℚ) : MACDArrays :=
  let macdLine := List.zipWith optSub (calculateEMA closes 12) (calculateEMA closes 26)
  let validMacd := macdLine.map (fun v => v.getD 0)
  let signalLine := calculateEMA validMacd 9
  ⟨macdLine, signalLine, List.zipWith optSub macdLine signalLine⟩

end TA

namespace TA

/-- Level type tag of `PriceLevel` (`'support' | 'resistance'`). -/
inductive LevelType
  | support
  | resistance
  deriving DecidableEq, Repr

/-- `PriceLevel` from `types.ts`. -/
structure PriceLevel where
  price : ℚ
  type : LevelType
  strength : ℕ
  touches : ℕ
  lastTouch : ℤ
  deriving DecidableEq, Repr

/-- `SupportResistanceLevels` from `types.ts`. -/
structure SupportResistanceLevels where
  supports : List PriceLevel
  resistances : List PriceLevel
  pivotPoint : ℚ
  deriving DecidableEq, Repr

/-- Result of `calculatePivotPoints`. -/
structure PivotPoints where
  pivot : ℚ
  r1 : ℚ
  r2 : ℚ
  r3 : ℚ
  s1 : ℚ
  s2 : ℚ
  s3 : ℚ
  deriving DecidableEq, Repr

/-- `calculatePivotPoints` from `technical-analysis.ts`. -/
def calculatePivotPoints (high low close : ℚ) : PivotPoints :=
  let pivot := (high + low + close) / 3
  { pivot := pivot
    r1 := 2 * pivot - low
    r2 := pivot + (high - low)
    r3 := high + 2 * (pivot - low)
    s1 := 2 * pivot - high
    s2 := pivot - (high - low)
    s3 := low - 2 * (high - pivot) }

/-- Dummy candle used for (provably in-bounds) list indexing. -/
def dummyCandle : Candle := ⟨0, 0, 0, 0, 0, 0⟩

/-- The local-extremum candidate levels collected by the
`for (let i = 2; i < recentCandles.length - 2; i++)` loop of
`findSupportResistance`, in push order (for each `i`, the resistance
candidate is pushed before the support candidate). -/
def srCandidates (recent : List Candle) : List PriceLevel :=
  (List.range' 2 (recent.length - 4)).flatMap (fun i =>
    let c := recent.getD i dummyCandle
    let p1 := recent.getD (i - 1) dummyCandle
    let p2 := recent.getD (i - 2) dummyCandle
    let n1 := recent.getD (i + 1) dummyCandle
    let n2 := recent.getD (i + 2) dummyCandle
    (if c.high > p1.high ∧ c.high > p2.high ∧ c.high > n1.high ∧ c.high > n2.high
      then [⟨c.high, LevelType.resistance, 1, 1, c.timestamp⟩] else []) ++
    (if c.low < p1.low ∧ c.low < p2.low ∧ c.low < n1.low ∧ c.low < n2.low
      then [⟨c.low, LevelType.support, 1, 1, c.timestamp⟩] else []))

/-- The merge test `l.type === level.type && Math.abs(l.price - level.price)
/ level.price < threshold` where `level` is the incoming candidate `c` and
`l` an existing merged level.  When `c.price = 0` the JavaScript quotient
is `NaN` or `±Infinity` and the `<` comparison is false, hence the
explicit guard; for `c.price ≠ 0` the rational quotient is exact. -/
def nearbyMatch (threshold : ℚ) (c l : PriceLevel) : Prop :=
  l.type = c.type ∧ c.price ≠ 0 ∧ |l.price - c.price| / c.price < threshold

instance (threshold : ℚ) (c l : PriceLevel) : Decidable (nearbyMatch threshold c l) := by
  unfold nearbyMatch
  infer_instance

/-- The in-place update of a matched merged level: running weighted
average price, incremented touch count, strength capped at 5. -/
def mergeUpdate (l c : PriceLevel) : PriceLevel :=
  { l with
    price := (l.price * (l.touches : ℚ) + c.price) / ((l.touches : ℚ) + 1)
    touches := l.touches + 1
    strength := min 5 (l.touches + 1) }

/-- One step of the merge loop: the candidate `c` is folded into the first
matching merged level (`mergedLevels.find(...)` mutates that level), or
appended at the end (`mergedLevels.push({...level})`). -/
def mergeInto (threshold : ℚ) : List PriceLevel → PriceLevel → List PriceLevel
  | [], c => [c]
  | l :: ls, c =>
    if nearbyMatch threshold c l then mergeUpdate l c :: ls
    else l :: mergeInto threshold ls c

/-- Ascending price order used for `sortedLevels` (comparator
`(a, b) => a.price - b.price`). -/
def priceLE (a b : PriceLevel) : Prop := a.price ≤ b.price

/-- Descending price order used for the `supports` result (comparator
`(a, b) => b.price - a.price`). -/
def priceGE (a b : PriceLevel) : Prop := b.price ≤ a.price

instance : DecidableRel priceLE := fun a b => inferInstanceAs (Decidable (a.price ≤ b.price))

instance : DecidableRel priceGE := fun a b => inferInstanceAs (Decidable (b.price ≤ a.price))

instance : IsTotal PriceLevel priceLE := ⟨fun a b => le_total a.price b.price⟩

instance : IsTrans PriceLevel priceLE := ⟨fun _ _ _ h h' => le_trans h h'⟩

instance : IsTotal PriceLevel priceGE := ⟨fun a b => le_total b.price a.price⟩

instance : IsTrans PriceLevel priceGE := ⟨fun _ _ _ h h' => le_trans h' h⟩

/-- `recentCandles = candles.slice(-lookback)` of `findSupportResistance`. -/
def srRecent (candles : List Candle) (lookback : ℕ) : List Candle :=
  candles.drop (candles.length - lookback)

/-- `mergedLevels` of `findSupportResistance`: the candidates sorted
ascending by price (`[...levels].sort((a, b) => a.price - b.price)`),
each folded into the first matching merged level or appended. -/
def srMerged (candles : List Candle) (lookback : ℕ) (threshold : ℚ) : List PriceLevel :=
  (List.insertionSort priceLE (srCandidates (srRecent candles lookback))).foldl
    (mergeInto threshold) []

/-- The last candle of `recentCandles`, feeding `calculatePivotPoints`. -/
def srLastRecent (candles : List Candle) (lookback : ℕ) : Candle :=
  (srRecent candles lookback).getD ((srRecent candles lookback).length - 1) dummyCandle

/-- `findSupportResistance` from `technical-analysis.ts`.  JavaScript's
`Array.prototype.sort` is a stable sort, so each of its three uses is
modelled by the stable `insertionSort` with the comparator's preorder. -/
def findSupportResistance (candles : List Candle) (lookback : ℕ) (threshold : ℚ) :
    SupportResistanceLevels :=
  if candles.length < 10 then
    ⟨[], [], ((candles.getLast?).map Candle.close).getD 0⟩
  else
    ⟨List.insertionSort priceGE
        ((srMerged candles lookback threshold).filter (fun l => l.type = LevelType.support)),
     List.insertionSort priceLE
        ((srMerged candles lookback threshold).filter (fun l => l.type = LevelType.resistance)),
     (calculatePivotPoints (srLastRecent candles lookback).high
        (srLastRecent candles lookback).low (srLastRecent candles lookback).close).pivot⟩

end TA

/-- A ten-candle series whose lows contain two separated zero local
minima (highs are flat, so there are no resistance candidates). -/
def cex8 : List TA.Candle :=
  [⟨0, 5, 10, 5, 5, 0⟩, ⟨1, 5, 10, 5, 5, 0⟩, ⟨2, 5, 10, 0, 5, 0⟩, ⟨3, 5, 10, 5, 5, 0⟩,
   ⟨4, 5, 10, 5, 5, 0⟩, ⟨5, 5, 10, 0, 5, 0⟩, ⟨6, 5, 10, 5, 5, 0⟩, ⟨7, 5, 10, 5, 5, 0⟩,
   ⟨8, 5, 10, 5, 5, 0⟩, ⟨9, 5, 10, 5, 5, 0⟩]

namespace TA

/-- Gap invariant between successive merged levels of one type: the
earlier level's price is at least a `threshold`-fraction below the later
one's. -/
def gapRel (θ : ℚ) (a b : PriceLevel) : Prop := a.price ≤ (1 - θ) * b.price

/-- Strict price order (used to state strict sortedness). -/
def priceLT (a b : PriceLevel) : Prop := a.price < b.price

instance : IsTrans PriceLevel priceLT := ⟨fun _ _ _ h h' => lt_trans h h'⟩

end TA

/-- A ten-candle all-positive series for the C8 witness. -/
def wit8 : List TA.Candle :=
  [⟨0, 5, 10, 4, 5, 0⟩, ⟨1, 5, 10, 5, 5, 0⟩, ⟨2, 5, 12, 3, 5, 0⟩, ⟨3, 5, 10, 5, 5, 0⟩,
   ⟨4, 5, 10, 5, 5, 0⟩, ⟨5, 5, 11, 2, 5, 0⟩, ⟨6, 5, 10, 5, 5, 0⟩, ⟨7, 5, 10, 5, 5, 0⟩,
   ⟨8, 5, 10, 5, 5, 0⟩, ⟨9, 5, 10, 5, 5, 0⟩]

namespace TA

/-- `calculateStdDev` from `technical-analysis.ts` (population standard
deviation over the trailing window); `Math.sqrt` is the explicit
parameter `sqrtQ`. -/
def calculateStdDev (sqrtQ : ℚ → ℚ) (data : List ℚ) (period : ℕ) : List (Option ℚ) :=
  (List.range data.length).map (fun i =>
    if i < period - 1 then none
    else some (sqrtQ (((((data.drop (i + 1 - period)).take period).map
      (fun v => (v - ((data.drop (i + 1 - period)).take period).sum / (period : ℚ)) ^ 2)).sum)
        / (period : ℚ))))

/-- Result of `calculateBollingerBands`. -/
structure BollingerArrays where
  upper : List (Option ℚ)
  middle : List (Option ℚ)
  lower : List (Option ℚ)
  width : List (Option ℚ)
  deriving DecidableEq, Repr

/-- Pointwise combination of the middle band and standard deviation used
by the `calculateBollingerBands` loop (null whenever either is null). -/
def bbCombine (f : ℚ → ℚ → Option ℚ) (middle sd : List (Option ℚ)) : List (Option ℚ) :=
  List.zipWith (fun m s =>
    match m, s with
    | some mv, some sv => f mv sv
    | _, _ => none) middle sd

/-- `calculateBollingerBands` from `technical-analysis.ts`: middle is
`SMA(period)`, upper/lower are `middle ± multiplier*stdDev`, width is
`(upper - lower) / middle` guarded by `middle[i] !== 0`. -/
def calculateBollingerBands (sqrtQ : ℚ → ℚ) (closes : List ℚ) (period : ℕ) (mult : ℚ) :
    BollingerArrays :=
  ⟨bbCombine (fun m s => some (m + mult * s)) (calculateSMA closes period)
      (calculateStdDev sqrtQ closes period),
   calculateSMA closes period,
   bbCombine (fun m s => some (m - mult * s)) (calculateSMA closes period)
      (calculateStdDev sqrtQ closes period),
   bbCombine (fun m s => if m ≠ 0 then some ((m + mult * s - (m - mult * s)) / m) else none)
      (calculateSMA closes period) (calculateStdDev sqrtQ closes period)⟩

end TA

namespace Route

/-- `BacktestConfig` from `types.ts` (dates are epoch milliseconds). -/
structure BacktestConfig where
  cryptoId : String
  startDate : ℤ
  endDate : ℤ
  initialCapital : ℚ
  rsiOversold : ℚ
  rsiOverbought : ℚ
  stopLossPercent : ℚ
  takeProfitPercent : ℚ
  positionSizePercent : ℚ
  maxPositions : ℕ
  deriving DecidableEq, Repr

/-- Trade direction tag. -/
inductive TradeType
  | BUY
  | SELL
  deriving DecidableEq, Repr

/-- `BacktestTrade` from `types.ts`; `pnl`/`pnlPercent` are the optional
fields present only on SELL entries. -/
structure BacktestTrade where
  type : TradeType
  timestamp : ℤ
  price : ℚ
  quantity : ℚ
  total : ℚ
  reason : String
  pnl : Option ℚ
  pnlPercent : Option ℚ
  deriving DecidableEq, Repr

/-- One `equityCurve` sample. -/
structure EquityPoint where
  timestamp : ℤ
  value : ℚ
  deriving DecidableEq, Repr

/-- The mutable local variables of the `runBacktest` simulation loop. -/
structure BTState where
  capital : ℚ
  position : ℚ
  entryPrice : ℚ
  stopLoss : ℚ
  takeProfit : ℚ
  trades : List BacktestTrade
  equityCurve : List EquityPoint
  winningTrades : ℕ
  losingTrades : ℕ
  totalPnL : ℚ
  maxDrawdown : ℚ
  peakEquity : ℚ
  deriving DecidableEq, Repr

/-- Initial simulation state. -/
def initState (cfg : BacktestConfig) : BTState :=
  ⟨cfg.initialCapital, 0, 0, 0, 0, [], [], 0, 0, 0, 0, cfg.initialCapital⟩

/-- How a close updates the win/loss counters: a stop-loss close counts
only when `pnl < 0`, a take-profit close only when `pnl > 0`, and a
signal close (or the end-of-series force close) always counts one side. -/
inductive SellMode
  | stopLossHit
  | takeProfitHit
  | signal
  deriving DecidableEq, Repr

/-- A SELL execution at `price`: realizes `pnl = (price - entryPrice) *
position`, returns the proceeds to capital, logs the trade and updates
the counters per `SellMode`.  (The `position`/`entryPrice` reset that the
loop branches perform — and the force close omits — is done by callers.)
The JS `pnlPercent` divides by `entryPrice * position`; the rational
division-by-zero convention only matters for a zero entry, which the
theorems exclude via positive closes. -/
def applySell (mode : SellMode) (ts : ℤ) (price : ℚ) (reason : String) (st : BTState) :
    BTState :=
  let pnl := (price - st.entryPrice) * st.position
  { st with
    capital := st.capital + price * st.position
    trades := st.trades ++ [⟨TradeType.SELL, ts, price, st.position, price * st.position,
      reason, some pnl, some (pnl / (st.entryPrice * st.position) * 100)⟩]
    winningTrades := st.winningTrades +
      (match mode with
        | SellMode.stopLossHit => 0
        | SellMode.takeProfitHit => if 0 < pnl then 1 else 0
        | SellMode.signal => if 0 < pnl then 1 else 0)
    losingTrades := st.losingTrades +
      (match mode with
        | SellMode.stopLossHit => if pnl < 0 then 1 else 0
        | SellMode.takeProfitHit => 0
        | SellMode.signal => if 0 < pnl then 0 else 1)
    totalPnL := st.totalPnL + pnl }

/-- The `buySignals` list collected at a candle, in push order. -/
def buySignals (cfg : BacktestConfig) (candle : TA.Candle)
    (rsi hist prevHist lower : Option ℚ) : List String :=
  (match rsi with
    | some r => if r < cfg.rsiOversold then ["RSI oversold"] else []
    | none => []) ++
  (match hist, prevHist with
    | some h, some ph => if 0 < h ∧ ph ≤ 0 then ["MACD bullish crossover"] else []
    | _, _ => []) ++
  (match lower with
    | some lb => if candle.close < lb then ["Below Bollinger Band"] else []
    | none => [])

/-- The `sellSignals` list collected at a candle, in push order. -/
def sellSignals (cfg : BacktestConfig) (rsi hist prevHist : Option ℚ) : List String :=
  (match rsi with
    | some r => if cfg.rsiOverbought < r then ["RSI overbought"] else []
    | none => []) ++
  (match hist, prevHist with
    | some h, some ph => if h < 0 ∧ 0 ≤ ph then ["MACD bearish crossover"] else []
    | _, _ => [])

/-- The BUY execution: position size is `capital * positionSizePercent /
100`, quantity `positionSize / close`; stop-loss and take-profit are set
from the entry close. -/
def applyBuy (cfg : BacktestConfig) (candle : TA.Candle) (signals : List String)
    (st : BTState) : BTState :=
  { st with
    position := st.capital * cfg.positionSizePercent / 100 / candle.close
    entryPrice := candle.close
    stopLoss := candle.close * (1 - cfg.stopLossPercent / 100)
    takeProfit := candle.close * (1 + cfg.takeProfitPercent / 100)
    capital := st.capital - st.capital * cfg.positionSizePercent / 100
    trades := st.trades ++ [⟨TradeType.BUY, candle.timestamp, candle.close,
      st.capital * cfg.positionSizePercent / 100 / candle.close,
      st.capital * cfg.positionSizePercent / 100,
      String.intercalate ", " signals, none, none⟩] }

/-- The trailing `// Sell signal (if in position)` block of the loop. -/
def sellPhase (cfg : BacktestConfig) (candle : TA.Candle) (rsi hist prevHist : Option ℚ)
    (st : BTState) : BTState :=
  if 0 < st.position ∧ sellSignals cfg rsi hist prevHist ≠ [] then
    { applySell SellMode.signal candle.timestamp candle.close
        (String.intercalate ", " (sellSignals cfg rsi hist prevHist)) st with
      position := 0, entryPrice := 0 }
  else st

/-- The equity-point push and peak/drawdown update at the top of each
loop iteration.  (`(peak - equity) / peak` follows the rational
division-by-zero convention where JS would produce `NaN` for a zero peak;
the `maxDrawdown` field is not referenced by any claim.) -/
def bookkeep (candle : TA.Candle) (st : BTState) : BTState :=
  { st with
    equityCurve := st.equityCurve ++
      [⟨candle.timestamp, st.capital + st.position * candle.close⟩]
    peakEquity :=
      if st.peakEquity < st.capital + st.position * candle.close
        then st.capital + st.position * candle.close else st.peakEquity
    maxDrawdown :=
      if st.maxDrawdown <
          ((if st.peakEquity < st.capital + st.position * candle.close
              then st.capital + st.position * candle.close else st.peakEquity)
            - (st.capital + st.position * candle.close)) /
          (if st.peakEquity < st.capital + st.position * candle.close
              then st.capital + st.position * candle.close else st.peakEquity)
        then
          ((if st.peakEquity < st.capital + st.position * candle.close
              then st.capital + st.position * candle.close else st.peakEquity)
            - (st.capital + st.position * candle.close)) /
          (if st.peakEquity < st.capital + st.position * candle.close
              then st.capital + st.position * candle.close else st.peakEquity)
        else st.maxDrawdown }

/-- One iteration of the `for (let i = 50; ...)` loop of the API route's
`runBacktest`: record the equity point and drawdown, then (in a position)
check the intracandle stop-loss / take-profit exits (`continue` skips the
rest), otherwise run the buy block followed by the sell-signal block. -/
def step (cfg : BacktestConfig) (candle : TA.Candle) (rsi hist prevHist lower : Option ℚ)
    (st : BTState) : BTState :=
  if 0 < (bookkeep candle st).position ∧ candle.low ≤ (bookkeep candle st).stopLoss then
    { applySell SellMode.stopLossHit candle.timestamp (bookkeep candle st).stopLoss "Stop Loss"
        (bookkeep candle st) with position := 0, entryPrice := 0 }
  else if 0 < (bookkeep candle st).position ∧
      (bookkeep candle st).takeProfit ≤ candle.high then
    { applySell SellMode.takeProfitHit candle.timestamp (bookkeep candle st).takeProfit
        "Take Profit" (bookkeep candle st) with position := 0, entryPrice := 0 }
  else
    sellPhase cfg candle rsi hist prevHist
      (if (bookkeep candle st).position = 0 ∧ 0 < (bookkeep candle st).capital ∧
          buySignals cfg candle rsi hist prevHist lower ≠ [] then
        applyBuy cfg candle (buySignals cfg candle rsi hist prevHist lower)
          (bookkeep candle st)
      else bookkeep candle st)

/-- The loop body at index `i`, reading the candle and the indicator
arrays (an out-of-range JS access yields `undefined`, which every
comparison in the loop treats exactly like `null`, so both flatten to
`none`). -/
def stepAt (cfg : BacktestConfig) (candles : List TA.Candle) (rsi hist lower : List (Option ℚ))
    (i : ℕ) (st : BTState) : BTState :=
  step cfg (candles.getD i TA.dummyCandle) ((rsi.get? i).join) ((hist.get? i).join)
    ((hist.get? (i - 1)).join) ((lower.get? i).join) st

/-- The full simulation loop, from index 50 to the end of the series. -/
def runLoop (cfg : BacktestConfig) (candles : List TA.Candle)
    (rsi hist lower : List (Option ℚ)) : BTState :=
  (List.range' 50 (candles.length - 50)).foldl
    (fun st i => stepAt cfg candles rsi hist lower i st) (initState cfg)

/-- `// Close any remaining position` at the last candle's close. -/
def forceClose (candles : List TA.Candle) (st : BTState) : BTState :=
  if 0 < st.position then
    applySell SellMode.signal (candles.getD (candles.length - 1) TA.dummyCandle).timestamp
      (candles.getD (candles.length - 1) TA.dummyCandle).close "End of backtest" st
  else st

end Route

namespace Route

/-- JavaScript `Math.round`: half-way cases round toward `+∞`. -/
def jsRound (q : ℚ) : ℤ := ⌊q + 1 / 2⌋

/-- Decimal digits of a natural number, left-padded with zeros. -/
def padNat (width : ℕ) (n : ℕ) : String :=
  let s := toString n
  String.mk (List.replicate (width - s.length) '0') ++ s

/-- JavaScript `Number.prototype.toFixed(f)` for nonnegative arguments:
the integer `n` minimizing `|n / 10^f - q|`, ties to the larger `n`. -/
def jsToFixedNonneg (f : ℕ) (q : ℚ) : String :=
  let n := (⌊q * (10 : ℚ) ^ f + 1 / 2⌋).toNat
  if f = 0 then toString n
  else toString (n / 10 ^ f) ++ "." ++ padNat f (n % 10 ^ f)

/-- JavaScript `toFixed(f)`: a negative argument is formatted as the
negated nonnegative value with a leading minus sign. -/
def jsToFixed (f : ℕ) (q : ℚ) : String :=
  if q < 0 then "-" ++ jsToFixedNonneg f (-q) else jsToFixedNonneg f q

/-- `generateBacktestAnalysis` from the API route (Spanish summary text;
the route passes the drawdown fraction, not the percentage). -/
def generateBacktestAnalysis (returnPercent winRate maxDrawdown sharpe : ℚ)
    (totalTrades : ℕ) : String :=
  let p1 :=
    if 50 < returnPercent then
      "📈 Excelente rendimiento con retorno del " ++ jsToFixed 1 returnPercent ++ "%"
    else if 20 < returnPercent then
      "📊 Buen rendimiento con retorno del " ++ jsToFixed 1 returnPercent ++ "%"
    else if 0 < returnPercent then
      "📉 Rendimiento moderado del " ++ jsToFixed 1 returnPercent ++ "%"
    else "❌ Pérdida del " ++ jsToFixed 1 |returnPercent| ++ "%"
  let p2 :=
    if 60 < winRate then "Tasa de éxito alta del " ++ jsToFixed 1 winRate ++ "%"
    else if 40 < winRate then "Tasa de éxito moderada del " ++ jsToFixed 1 winRate ++ "%"
    else "Tasa de éxito baja del " ++ jsToFixed 1 winRate ++ "%"
  let p3 :=
    if 30 < maxDrawdown then
      "⚠️ Drawdown máximo alto del " ++ jsToFixed 1 maxDrawdown
        ++ "% - considerar ajustar stop loss"
    else if 15 < maxDrawdown then
      "Drawdown máximo del " ++ jsToFixed 1 maxDrawdown ++ "% - aceptable"
    else "Excelente control de riesgo con drawdown del " ++ jsToFixed 1 maxDrawdown ++ "%"
  let p4 :=
    if 1 < sharpe then ["Ratio Sharpe excelente: " ++ jsToFixed 2 sharpe]
    else if 1 / 2 < sharpe then ["Ratio Sharpe aceptable: " ++ jsToFixed 2 sharpe]
    else []
  let p5 := "Total de " ++ toString totalTrades ++ " operaciones ejecutadas"
  String.intercalate ". " ([p1, p2, p3] ++ p4 ++ [p5])

/-- `BacktestResult` from `types.ts`, as assembled by the API route's
`runBacktest`. -/
structure BacktestResult where
  config : BacktestConfig
  totalReturn : ℚ
  totalReturnPercent : ℚ
  annualizedReturn : ℚ
  maxDrawdown : ℚ
  sharpeRatio : ℚ
  winRate : ℚ
  totalTrades : ℕ
  winningTrades : ℕ
  losingTrades : ℕ
  trades : List BacktestTrade
  equityCurve : List EquityPoint
  analysis : String
  deriving DecidableEq, Repr

/-- The trade returns used for the simplified Sharpe ratio. -/
def sharpeReturns (trades : List BacktestTrade) : List ℚ :=
  (trades.filter (fun t => t.pnl.isSome)).map (fun t => t.pnlPercent.getD 0 / 100)

/-- `runBacktest` from `src/app/api/backtest/route.ts`.  `sqrtQ` stands
for `Math.sqrt` (used only in the Sharpe ratio); `macdResult` and
`bollinger` are the indicator arrays the route computes over the full
close series and passes in. -/
def runBacktest (sqrtQ : ℚ → ℚ) (candles : List TA.Candle) (rsiValues : List (Option ℚ))
    (macdResult : TA.MACDArrays) (bollinger : TA.BollingerArrays) (cfg : BacktestConfig) :
    BacktestResult :=
  let st := forceClose candles
    (runLoop cfg candles rsiValues macdResult.histogram bollinger.lower)
  let totalReturn := st.capital - cfg.initialCapital
  let totalReturnPercent := totalReturn / cfg.initialCapital * 100
  let totalTrades := st.winningTrades + st.losingTrades
  let winRate := if 0 < totalTrades then (st.winningTrades : ℚ) / (totalTrades : ℚ) * 100 else 0
  let returns := sharpeReturns st.trades
  let avgReturn := if 0 < returns.length then returns.sum / (returns.length : ℚ) else 0
  let stdDev :=
    if 1 < returns.length then
      sqrtQ (((returns.map (fun r => (r - avgReturn) ^ 2)).sum) / ((returns.length : ℚ) - 1))
    else 0
  let sharpeRatio := if 0 < stdDev then avgReturn / stdDev * sqrtQ 252 else 0
  { config := cfg
    totalReturn := totalReturn
    totalReturnPercent := totalReturnPercent
    annualizedReturn := totalReturnPercent * (365 / max 1 ((candles.length : ℚ) / 24))
    maxDrawdown := st.maxDrawdown * 100
    sharpeRatio := sharpeRatio
    winRate := winRate
    totalTrades := totalTrades
    winningTrades := st.winningTrades
    losingTrades := st.losingTrades
    trades := st.trades
    equityCurve := st.equityCurve
    analysis := generateBacktestAnalysis totalReturnPercent winRate st.maxDrawdown
      sharpeRatio totalTrades }

/-- Sum of realized `pnl` over a trade log (BUY entries carry none). -/
def sellPnlSum (trades : List BacktestTrade) : ℚ :=
  (trades.map (fun t => t.pnl.getD 0)).sum

/-- Number of SELL entries in a trade log. -/
def sellCount (trades : List BacktestTrade) : ℕ :=
  (trades.filter (fun t => t.type = TradeType.SELL)).length

/-- Number of BUY entries in a trade log. -/
def buyCount (trades : List BacktestTrade) : ℕ :=
  (trades.filter (fun t => t.type = TradeType.BUY)).length

end Route

namespace Route

/-- Loop invariant for cash conservation: cash plus position cost basis
equals initial capital plus realized pnl, the position is never negative,
and exactly the SELL log entries carry a pnl. -/
def conservInv (cfg : BacktestConfig) (st : BTState) : Prop :=
  st.capital + st.position * st.entryPrice = cfg.initialCapital + sellPnlSum st.trades ∧
  0 ≤ st.position ∧
  ∀ t ∈ st.trades, (t.pnl.isSome ↔ t.type = TradeType.SELL)

end Route

/-- 51 flat candles at price 100. -/
def cexCandles51 : List TA.Candle := List.replicate 51 ⟨0, 100, 100, 100, 100, 0⟩

/-- An RSI array deep in oversold territory (triggers a BUY at index 50). -/
def cexRsi51 : List (Option ℚ) := List.replicate 51 (some 10)

/-- MACD arrays with no defined values. -/
def cexMacd51 : TA.MACDArrays :=
  ⟨List.replicate 51 none, List.replicate 51 none, List.replicate 51 none⟩

/-- Bollinger arrays with no defined values. -/
def cexBoll51 : TA.BollingerArrays :=
  ⟨List.replicate 51 none, List.replicate 51 none, List.replicate 51 none, List.replicate 51 none⟩

/-- The route's default configuration. -/
def cexCfg : Route.BacktestConfig := ⟨"bitcoin", 0, 0, 10000, 30, 70, 5, 20, 10, 3⟩

/-- The default configuration with a negative position-size percent
(accepted by the route, since `-10 || 10` keeps `-10`). -/
def cexCfgNeg : Route.BacktestConfig := ⟨"bitcoin", 0, 0, 10000, 30, 70, 5, 20, -10, 3⟩

namespace Route

/-- Loop invariant for trade counting: the win/loss counters track the
SELL entries, BUY entries exceed SELL entries exactly when a position is
open, and an open position has positive size, a positive entry price and
the stop/take levels derived from the entry. -/
def countInv (cfg : BacktestConfig) (st : BTState) : Prop :=
  st.winningTrades + st.losingTrades = sellCount st.trades ∧
  buyCount st.trades = sellCount st.trades + (if st.position = 0 then 0 else 1) ∧
  (st.position ≠ 0 → 0 < st.position ∧ 0 < st.entryPrice ∧
    st.stopLoss = st.entryPrice * (1 - cfg.stopLossPercent / 100) ∧
    st.takeProfit = st.entryPrice * (1 + cfg.takeProfitPercent / 100))

end Route

namespace Route

/-- The simulation state entering iteration `i` (all iterations from 50
to `i - 1` applied to the initial state). -/
def stateBefore (cfg : BacktestConfig) (candles : List TA.Candle)
    (rsi hist lower : List (Option ℚ)) (i : ℕ) : BTState :=
  (List.range' 50 (i - 50)).foldl (fun st j => stepAt cfg candles rsi hist lower j st)
    (initState cfg)

/-- The decision the backtest takes at index `i`: the trades it appends
during iteration `i` (each carries its type, price and quantity). -/
def decisionAt (cfg : BacktestConfig) (candles : List TA.Candle)
    (rsi hist lower : List (Option ℚ)) (i : ℕ) : List BacktestTrade :=
  (stepAt cfg candles rsi hist lower i (stateBefore cfg candles rsi hist lower i)).trades.drop
    (stateBefore cfg candles rsi hist lower i).trades.length

/-- The decision at index `i` of the route's full pipeline: indicators
computed by `calculateRSI`, `calculateMACD` and `calculateBollingerBands`
over the series' closes, then fed to the `runBacktest` loop. -/
def pipelineDecisionAt (sqrtQ : ℚ → ℚ) (candles : List TA.Candle) (cfg : BacktestConfig)
    (i : ℕ) : List BacktestTrade :=
  decisionAt cfg candles (TA.calculateRSI (candles.map TA.Candle.close) 14)
    (TA.calculateMACD (candles.map TA.Candle.close)).histogram
    (TA.calculateBollingerBands sqrtQ (candles.map TA.Candle.close) 20 2).lower i

end Route

namespace Store

/-- Signal tag of the store module's `IndicatorResult`. -/
inductive SignalKind
  | BUY
  | SELL
  | NEUTRAL
  deriving DecidableEq, Repr

/-- `IndicatorResult` of `store.ts`. -/
structure IndicatorResult where
  value : ℚ
  signal : SignalKind
  strength : ℚ
  deriving DecidableEq, Repr

/-- Sum of the positive changes among the first `period` (the store's
initial-average loop adds `changes[i]` to `gains` when positive). -/
def initGains (chs : List ℚ) (period : ℕ) : ℚ :=
  ((chs.take period).map (fun c => if 0 < c then c else 0)).sum

/-- Sum of `Math.abs(changes[i])` over the non-positive changes among the
first `period`. -/
def initLosses (chs : List ℚ) (period : ℕ) : ℚ :=
  ((chs.take period).map (fun c => if 0 < c then 0 else |c|)).sum

/-- One smoothed-average update of the store's `calculateRSI` loop. -/
def wilderStep (period : ℕ) (avg : ℚ × ℚ) (c : ℚ) : ℚ × ℚ :=
  if 0 < c then
    ((avg.1 * ((period : ℚ) - 1) + c) / (period : ℚ), avg.2 * ((period : ℚ) - 1) / (period : ℚ))
  else
    (avg.1 * ((period : ℚ) - 1) / (period : ℚ), (avg.2 * ((period : ℚ) - 1) + |c|) / (period : ℚ))

/-- The smoothed average gain/loss pair after the whole series (the
per-step changes are the same `closes[i] - closes[i-1]` list as in the
technical-analysis module, hence `TA.changes`). -/
def rsiAvgs (closes : List ℚ) (period : ℕ) : ℚ × ℚ :=
  ((TA.changes closes).drop period).foldl (wilderStep period)
    (initGains (TA.changes closes) period / (period : ℚ),
     initLosses (TA.changes closes) period / (period : ℚ))

/-- `calculateRSI` from `store.ts` (single-value variant): neutral `50`
for fewer than `period + 1` closes, `100` when the smoothed average loss
is zero, otherwise `100 - 100/(1 + rs)` with the threshold
classification; `Math.round` is the floor of `x + 1/2`. -/
def calculateRSI (closes : List ℚ) (period : ℕ) : IndicatorResult :=
  if closes.length < period + 1 then ⟨50, SignalKind.NEUTRAL, 0⟩
  else if (rsiAvgs closes period).2 = 0 then ⟨100, SignalKind.SELL, 100⟩
  else
    let rsi := 100 - 100 / (1 + (rsiAvgs closes period).1 / (rsiAvgs closes period).2)
    if rsi < 30 then ⟨rsi, SignalKind.BUY, ((Route.jsRound ((30 - rsi) / 30 * 100) : ℤ) : ℚ)⟩
    else if 70 < rsi then
      ⟨rsi, SignalKind.SELL, ((Route.jsRound ((rsi - 70) / 30 * 100) : ℤ) : ℚ)⟩
    else if rsi < 40 then
      ⟨rsi, SignalKind.BUY, ((Route.jsRound ((40 - rsi) / 40 * 50) : ℤ) : ℚ)⟩
    else if 60 < rsi then
      ⟨rsi, SignalKind.SELL, ((Route.jsRound ((rsi - 60) / 40 * 50) : ℤ) : ℚ)⟩
    else ⟨rsi, SignalKind.NEUTRAL, 0⟩

/-- Result record of the store's `calculateMACD`. -/
structure MACDOut where
  macd : Option ℚ
  signal : Option ℚ
  histogram : Option ℚ
  result : IndicatorResult
  deriving DecidableEq, Repr

/-- The store MACD loop: starting from the fast/slow SMAs over the first
`fastPeriod`/`slowPeriod` closes (each already pushed), every index from
`fastPeriod` on updates the fast EMA and pushes it, and indices
`≥ slowPeriod - 1` also update and push the slow EMA.  State:
`(fastSMA, slowSMA, fastEMA, slowEMA)`. -/
def macdLoop (closes : List ℚ) (fastPeriod slowPeriod : ℕ) : ℚ × ℚ × List ℚ × List ℚ :=
  (List.range' fastPeriod (closes.length - fastPeriod)).foldl
    (fun acc i =>
      let f := (closes.getD i 0 - acc.1) * (2 / ((fastPeriod : ℚ) + 1)) + acc.1
      if slowPeriod - 1 ≤ i then
        (f, (closes.getD i 0 - acc.2.1) * (2 / ((slowPeriod : ℚ) + 1)) + acc.2.1,
         acc.2.2.1 ++ [f],
         acc.2.2.2 ++ [(closes.getD i 0 - acc.2.1) * (2 / ((slowPeriod : ℚ) + 1)) + acc.2.1])
      else (f, acc.2.1, acc.2.2.1 ++ [f], acc.2.2.2))
    ((closes.take fastPeriod).sum / (fastPeriod : ℚ),
     (closes.take slowPeriod).sum / (slowPeriod : ℚ),
     [(closes.take fastPeriod).sum / (fastPeriod : ℚ)],
     [(closes.take slowPeriod).sum / (slowPeriod : ℚ)])

/-- `macdLine[i] = fastEMA[i + startIndex] - slowEMA[i]` with
`startIndex = slowPeriod - fastPeriod`. -/
def macdLineOf (fastEMA slowEMA : List ℚ) (startIndex : ℕ) : List ℚ :=
  (List.range slowEMA.length).map (fun i => fastEMA.getD (i + startIndex) 0 - slowEMA.getD i 0)

/-- The signal value: SMA of the first `signalPeriod` MACD-line values,
then the EMA recurrence over the rest. -/
def signalValueOf (macdLine : List ℚ) (signalPeriod : ℕ) : ℚ :=
  (macdLine.drop signalPeriod).foldl
    (fun s x => (x - s) * (2 / ((signalPeriod : ℚ) + 1)) + s)
    ((macdLine.take signalPeriod).sum / (signalPeriod : ℚ))

/-- `calculateMACD` from `store.ts` (single-value variant). -/
def calculateMACD (closes : List ℚ) (fastPeriod slowPeriod signalPeriod : ℕ) : MACDOut :=
  if closes.length < slowPeriod + signalPeriod then
    ⟨none, none, none, ⟨0, SignalKind.NEUTRAL, 0⟩⟩
  else
    let macdLine := macdLineOf (macdLoop closes fastPeriod slowPeriod).2.2.1
      (macdLoop closes fastPeriod slowPeriod).2.2.2 (slowPeriod - fastPeriod)
    let signalValue := signalValueOf macdLine signalPeriod
    let macd := macdLine.getD (macdLine.length - 1) 0
    let histogram := macd - signalValue
    let prevDiff := macdLine.getD (macdLine.length - 2) 0 - signalValue
    ⟨some macd, some signalValue, some histogram,
      if 0 < histogram ∧ prevDiff < 0 then ⟨macd, SignalKind.BUY, 80⟩
      else if histogram < 0 ∧ 0 < prevDiff then ⟨macd, SignalKind.SELL, 80⟩
      else if 0 < histogram then ⟨macd, SignalKind.BUY, min 50 (|histogram| * 1000)⟩
      else if histogram < 0 then ⟨macd, SignalKind.SELL, min 50 (|histogram| * 1000)⟩
      else ⟨macd, SignalKind.NEUTRAL, 0⟩⟩

/-- `OHLCVData` from `crypto-apis.ts` (timestamp is a `Date`, modelled as
epoch milliseconds). -/
structure OHLCVData where
  timestamp : ℤ
  open_ : ℚ
  high : ℚ
  low : ℚ
  close : ℚ
  volume : ℚ
  deriving DecidableEq, Repr

/-- `BacktestTrade` of `store.ts`. -/
structure StoreTrade where
  type : Route.TradeType
  price : ℚ
  timestamp : ℤ
  quantity : ℚ
  reason : String
  deriving DecidableEq, Repr

/-- Mutable locals of the store's `runBacktest` loop. -/
structure SBState where
  capital : ℚ
  position : ℚ
  trades : List StoreTrade
  maxCapital : ℚ
  maxDrawdown : ℚ
  returns : List ℚ
  deriving DecidableEq, Repr

/-- JavaScript truthiness of `macdResult.histogram && macdResult.histogram > 0`:
`null` and `0` are falsy, so the test holds exactly for a positive value. -/
def histTruthyPos (o : Option ℚ) : Prop :=
  match o with
  | some h => h ≠ 0 ∧ 0 < h
  | none => False

instance (o : Option ℚ) : Decidable (histTruthyPos o) := by
  unfold histTruthyPos
  cases o <;> infer_instance

/-- Truthiness of `macdResult.histogram && macdResult.histogram < 0`. -/
def histTruthyNeg (o : Option ℚ) : Prop :=
  match o with
  | some h => h ≠ 0 ∧ h < 0
  | none => False

instance (o : Option ℚ) : Decidable (histTruthyNeg o) := by
  unfold histTruthyNeg
  cases o <;> infer_instance

/-- The trade-return sample pushed on a SELL: against the last BUY in the
log, when one exists. -/
def pushReturn (trades : List StoreTrade) (currentPrice : ℚ) (returns : List ℚ) : List ℚ :=
  match (trades.filter (fun t => t.type = Route.TradeType.BUY)).getLast? with
  | some lastBuy => returns ++ [(currentPrice - lastBuy.price) / lastBuy.price]
  | none => returns

/-- The drawdown tracking at the end of each loop iteration. -/
def drawdownUpdate (currentPrice : ℚ) (st : SBState) : SBState :=
  { st with
    maxCapital :=
      if st.maxCapital < (if 0 < st.position then st.position * currentPrice else st.capital)
        then (if 0 < st.position then st.position * currentPrice else st.capital)
        else st.maxCapital
    maxDrawdown :=
      if st.maxDrawdown <
          ((if st.maxCapital < (if 0 < st.position then st.position * currentPrice
              else st.capital)
            then (if 0 < st.position then st.position * currentPrice else st.capital)
            else st.maxCapital)
            - (if 0 < st.position then st.position * currentPrice else st.capital)) /
          (if st.maxCapital < (if 0 < st.position then st.position * currentPrice
              else st.capital)
            then (if 0 < st.position then st.position * currentPrice else st.capital)
            else st.maxCapital)
        then
          ((if st.maxCapital < (if 0 < st.position then st.position * currentPrice
              else st.capital)
            then (if 0 < st.position then st.position * currentPrice else st.capital)
            else st.maxCapital)
            - (if 0 < st.position then st.position * currentPrice else st.capital)) /
          (if st.maxCapital < (if 0 < st.position then st.position * currentPrice
              else st.capital)
            then (if 0 < st.position then st.position * currentPrice else st.capital)
            else st.maxCapital)
        else st.maxDrawdown }

/-- One iteration of the store `runBacktest` loop at index `i`: the
indicators are recomputed over `data.slice(0, i)` (the closes strictly
before `i`), the trade price is the last of those closes, and the trade
timestamp is `data[i].timestamp`. -/
def step (rsiOversold rsiOverbought : ℚ) (data : List OHLCVData) (i : ℕ) (st : SBState) :
    SBState :=
  drawdownUpdate (((data.take i).map OHLCVData.close).getD
      (((data.take i).map OHLCVData.close).length - 1) 0)
    (if st.position = 0 ∧
        (calculateRSI ((data.take i).map OHLCVData.close) 14).value < rsiOversold ∧
        histTruthyPos (calculateMACD ((data.take i).map OHLCVData.close) 12 26 9).histogram then
      { st with
        position := st.capital / (((data.take i).map OHLCVData.close).getD
          (((data.take i).map OHLCVData.close).length - 1) 0)
        capital := 0
        trades := st.trades ++ [⟨Route.TradeType.BUY,
          ((data.take i).map OHLCVData.close).getD
            (((data.take i).map OHLCVData.close).length - 1) 0,
          (data.getD i ⟨0, 0, 0, 0, 0, 0⟩).timestamp,
          st.capital / (((data.take i).map OHLCVData.close).getD
            (((data.take i).map OHLCVData.close).length - 1) 0),
          "RSI: " ++ Route.jsToFixed 1
            ((calculateRSI ((data.take i).map OHLCVData.close) 14).value)
            ++ ", MACD crossover"⟩] }
    else if 0 < st.position ∧
        (rsiOverbought < (calculateRSI ((data.take i).map OHLCVData.close) 14).value ∨
          histTruthyNeg
            (calculateMACD ((data.take i).map OHLCVData.close) 12 26 9).histogram) then
      { st with
        capital := st.position * (((data.take i).map OHLCVData.close).getD
          (((data.take i).map OHLCVData.close).length - 1) 0)
        trades := st.trades ++ [⟨Route.TradeType.SELL,
          ((data.take i).map OHLCVData.close).getD
            (((data.take i).map OHLCVData.close).length - 1) 0,
          (data.getD i ⟨0, 0, 0, 0, 0, 0⟩).timestamp,
          st.position,
          if rsiOverbought < (calculateRSI ((data.take i).map OHLCVData.close) 14).value then
            "RSI overbought: " ++ Route.jsToFixed 1
              ((calculateRSI ((data.take i).map OHLCVData.close) 14).value)
          else "MACD bearish crossover"⟩]
        position := 0
        returns := pushReturn st.trades
          (((data.take i).map OHLCVData.close).getD
            (((data.take i).map OHLCVData.close).length - 1) 0) st.returns }
    else st)

end Store

namespace Store

/-- `BacktestResult` of `store.ts`. -/
structure StoreBacktestResult where
  trades : List StoreTrade
  totalReturn : ℚ
  totalReturnPercent : ℚ
  winRate : ℚ
  maxDrawdown : ℚ
  sharpeRatio : ℚ
  totalTrades : ℕ
  winningTrades : ℕ
  losingTrades : ℕ
  deriving DecidableEq, Repr

/-- `runBacktest` from `store.ts`: early return below 50 candles, the
loop from index 50, mark-to-market final value, win/loss counting by
pairing the i-th BUY with the i-th SELL, and a simplified Sharpe ratio
over the logged per-trade returns (`Math.sqrt` is `sqrtQ`). -/
def runBacktest (sqrtQ : ℚ → ℚ) (data : List OHLCVData) (initialCapital : ℚ)
    (rsiOversold rsiOverbought : ℚ) : StoreBacktestResult :=
  if data.length < 50 then ⟨[], 0, 0, 0, 0, 0, 0, 0, 0⟩
  else
    let final := (List.range' 50 (data.length - 50)).foldl
      (fun st i => step rsiOversold rsiOverbought data i st)
      ⟨initialCapital, 0, [], initialCapital, 0, []⟩
    let finalValue := if 0 < final.position then
        final.position * (data.getD (data.length - 1) ⟨0, 0, 0, 0, 0, 0⟩).close
      else final.capital
    let totalReturn := finalValue - initialCapital
    let pairs := List.zip (final.trades.filter (fun t => t.type = Route.TradeType.BUY))
      (final.trades.filter (fun t => t.type = Route.TradeType.SELL))
    let winning := (pairs.filter (fun p => p.1.price < p.2.price)).length
    let losing := (pairs.filter (fun p => ¬ p.1.price < p.2.price)).length
    let winRate := if 0 < winning + losing then
        (winning : ℚ) / ((winning : ℚ) + (losing : ℚ)) * 100 else 0
    let avgReturn := if 0 < final.returns.length then
        final.returns.sum / (final.returns.length : ℚ) else 0
    let stdReturn := if 1 < final.returns.length then
        sqrtQ ((final.returns.map (fun r => (r - avgReturn) ^ 2)).sum
          / ((final.returns.length : ℚ) - 1))
      else 0
    ⟨final.trades, totalReturn, totalReturn / initialCapital * 100, winRate,
      final.maxDrawdown * 100,
      (if 0 < stdReturn then avgReturn / stdReturn * sqrtQ 252 else 0),
      final.trades.length, winning, losing⟩

end Store

namespace TA

/-- Signal/strength pair returned by the single-indicator classifiers. -/
structure SignalStrength where
  signal : String
  strength : ℤ
  deriving DecidableEq, Repr

/-- `getRSISignal` from `technical-analysis.ts`. -/
def getRSISignal (rsi : ℚ) : SignalStrength :=
  if rsi ≤ 20 then ⟨"STRONG_OVERSOLD", 5⟩
  else if rsi ≤ 30 then ⟨"OVERSOLD", 4⟩
  else if rsi ≤ 40 then ⟨"SLIGHTLY_OVERSOLD", 2⟩
  else if 80 ≤ rsi then ⟨"STRONG_OVERBOUGHT", -5⟩
  else if 70 ≤ rsi then ⟨"OVERBOUGHT", -4⟩
  else if 60 ≤ rsi then ⟨"SLIGHTLY_OVERBOUGHT", -2⟩
  else ⟨"NEUTRAL", 0⟩

/-- `getMACDSignal` from `technical-analysis.ts`. -/
def getMACDSignal (macd signal histogram prevHistogram : Option ℚ) : SignalStrength :=
  match macd, signal, histogram with
  | some _, some _, some h =>
    if prevHistogram.isSome ∧ 0 < h ∧ prevHistogram.getD 0 ≤ 0 then ⟨"BULLISH_CROSSOVER", 4⟩
    else if prevHistogram.isSome ∧ h < 0 ∧ 0 ≤ prevHistogram.getD 0 then
      ⟨"BEARISH_CROSSOVER", -4⟩
    else if 0 < h then ⟨"BULLISH", if 1 / 2 < h then 2 else 1⟩
    else ⟨"BEARISH", if h < -(1 / 2) then -2 else -1⟩
  | _, _, _ => ⟨"NEUTRAL", 0⟩

/-- Result of `getBollingerSignal`; `position` is `%B`. -/
structure BollingerSignal where
  signal : String
  strength : ℤ
  position : ℚ
  deriving DecidableEq, Repr

/-- `getBollingerSignal` from `technical-analysis.ts` (`%B` follows the
rational division convention where JS would produce `NaN`/`Infinity` for
a zero band width; the claims do not touch `position`). -/
def getBollingerSignal (price : ℚ) (upper middle lower : Option ℚ) : BollingerSignal :=
  match upper, middle, lower with
  | some u, some m, some l =>
    if u < price then ⟨"ABOVE_UPPER", -3, (price - l) / (u - l)⟩
    else if price < l then ⟨"BELOW_LOWER", 3, (price - l) / (u - l)⟩
    else if m < price then ⟨"UPPER_HALF", 1, (price - l) / (u - l)⟩
    else ⟨"LOWER_HALF", -1, (price - l) / (u - l)⟩
  | _, _, _ => ⟨"NEUTRAL", 0, 1 / 2⟩

/-- Result of `analyzeVolume`. -/
structure VolumeArrays where
  sma : List (Option ℚ)
  ratio : List (Option ℚ)
  deriving DecidableEq, Repr

/-- `analyzeVolume` from `technical-analysis.ts`: the ratio is null when
the SMA is null or zero. -/
def analyzeVolume (volumes : List ℚ) (period : ℕ) : VolumeArrays :=
  ⟨calculateSMA volumes period,
   List.zipWith (fun v s =>
     match s with
     | some sv => if sv = 0 then none else some (v / sv)
     | none => none) volumes (calculateSMA volumes period)⟩

/-- `getVolumeSignal` from `technical-analysis.ts`. -/
def getVolumeSignal (volumeRatio : Option ℚ) (priceChange : ℚ) : SignalStrength :=
  match volumeRatio with
  | none => ⟨"NEUTRAL", 0⟩
  | some r =>
    if 2 < r ∧ 0 < priceChange then ⟨"HIGH_VOLUME_BULLISH", 3⟩
    else if 2 < r ∧ priceChange < 0 then ⟨"HIGH_VOLUME_BEARISH", -3⟩
    else if r < 1 / 2 then ⟨"LOW_VOLUME", 0⟩
    else ⟨"NORMAL", 0⟩

/-- Result of `getNearestLevels`. -/
structure NearestLevels where
  nearestSupport : Option PriceLevel
  nearestResistance : Option PriceLevel
  distanceToSupport : ℚ
  distanceToResistance : ℚ
  deriving DecidableEq, Repr

/-- `getNearestLevels` from `technical-analysis.ts`: first support below
and first resistance above the current price, with distances as percent
of the current price (100 when absent). -/
def getNearestLevels (currentPrice : ℚ) (lv : SupportResistanceLevels) : NearestLevels :=
  ⟨lv.supports.find? (fun s => s.price < currentPrice),
   lv.resistances.find? (fun r => currentPrice < r.price),
   match lv.supports.find? (fun s => s.price < currentPrice) with
   | some s => (currentPrice - s.price) / currentPrice * 100
   | none => 100,
   match lv.resistances.find? (fun r => currentPrice < r.price) with
   | some r => (r.price - currentPrice) / currentPrice * 100
   | none => 100⟩

/-- The module-level `levels` constant declared at the bottom of
`technical-analysis.ts` (`// Import for levels reference`): both lists
are always empty. -/
structure LevelsRef where
  supports : List PriceLevel
  resistances : List PriceLevel
  deriving DecidableEq, Repr

/-- `const levels = { supports: [], resistances: [] }`. -/
def levels : LevelsRef := ⟨[], []⟩

/-- `x?.price || null`: absent levels and zero prices become null. -/
def priceOrNull (o : Option PriceLevel) : Option ℚ :=
  match o with
  | some l => if l.price = 0 then none else some l.price
  | none => none

/-- Trend classification. -/
inductive Trend
  | BULLISH
  | BEARISH
  | SIDEWAYS
  deriving DecidableEq, Repr

/-- Categorical signal. -/
inductive SignalCat
  | STRONG_BUY
  | BUY
  | NEUTRAL
  | SELL
  | STRONG_SELL
  deriving DecidableEq, Repr

/-- `macd` sub-record of `TechnicalIndicators`. -/
structure MACDValues where
  macd : Option ℚ
  signal : Option ℚ
  histogram : Option ℚ
  deriving DecidableEq, Repr

/-- `bollingerBands` sub-record of `TechnicalIndicators`. -/
structure BollValues where
  upper : Option ℚ
  middle : Option ℚ
  lower : Option ℚ
  width : Option ℚ
  deriving DecidableEq, Repr

/-- `movingAverages` sub-record of `TechnicalIndicators`. -/
structure MAValues where
  sma20 : Option ℚ
  sma50 : Option ℚ
  sma200 : Option ℚ
  ema20 : Option ℚ
  ema50 : Option ℚ
  ema200 : Option ℚ
  deriving DecidableEq, Repr

/-- `volume` sub-record of `TechnicalIndicators`. -/
structure VolValues where
  sma20 : Option ℚ
  ratio : Option ℚ
  deriving DecidableEq, Repr

/-- `supportResistance` sub-record of `TechnicalIndicators`. -/
structure SRValues where
  support1 : Option ℚ
  support2 : Option ℚ
  resistance1 : Option ℚ
  resistance2 : Option ℚ
  pivot : ℚ
  deriving DecidableEq, Repr

/-- `TechnicalIndicators` from `types.ts`. -/
structure TechnicalIndicators where
  rsi : Option ℚ
  macd : MACDValues
  bollingerBands : BollValues
  movingAverages : MAValues
  volume : VolValues
  supportResistance : SRValues
  trend : Trend
  signal : SignalCat
  signalScore : ℤ
  deriving DecidableEq, Repr

/-- Last entry of a nullable array (`arr[arr.length - 1]`). -/
def lastEntry (l : List (Option ℚ)) : Option ℚ := l.getD (l.length - 1) none

end TA

namespace TA

/-- `performTechnicalAnalysis` from `technical-analysis.ts` (square root
passed as `sqrtQ`; the out-of-range reads `candles[len-1]`,
`closes[len-2]`, `histogram[len-2]` use `getD` defaults — the only
divergences from the JS `undefined`/`NaN` occur on series too short for
the guarding nullable indicator to be non-null, so every observable
field agrees; `rsi || 50` and `strength || 1` treat `0` as falsy). -/
def performTechnicalAnalysis (sqrtQ : ℚ → ℚ) (candles : List Candle) : TechnicalIndicators :=
  let closes := candles.map Candle.close
  let volumes := candles.map Candle.volume
  let lastCandle := candles.getD (candles.length - 1) dummyCandle
  let rsi := lastEntry (calculateRSI closes 14)
  let macdResult := calculateMACD closes
  let macd := lastEntry macdResult.macd
  let macdSignal := lastEntry macdResult.signal
  let macdHistogram := lastEntry macdResult.histogram
  let prevHistogram := macdResult.histogram.getD (macdResult.histogram.length - 2) none
  let bollinger := calculateBollingerBands sqrtQ closes 20 2
  let bollingerUpper := lastEntry bollinger.upper
  let bollingerMiddle := lastEntry bollinger.middle
  let bollingerLower := lastEntry bollinger.lower
  let bollingerWidth := lastEntry bollinger.width
  let sma20 := (calculateSMA closes 20).getD (closes.length - 1) none
  let sma50 := (calculateSMA closes 50).getD (closes.length - 1) none
  let sma200 := (calculateSMA closes 200).getD (closes.length - 1) none
  let ema20 := (calculateEMA closes 20).getD (closes.length - 1) none
  let ema50 := (calculateEMA closes 50).getD (closes.length - 1) none
  let ema200 := (calculateEMA closes 200).getD (closes.length - 1) none
  let volumeAnalysis := analyzeVolume volumes 20
  let volumeSma20 := lastEntry volumeAnalysis.sma
  let volumeRatio := lastEntry volumeAnalysis.ratio
  let supportResistance := findSupportResistance candles 100 (1 / 50)
  let nearest := getNearestLevels lastCandle.close supportResistance
  let rsiSignal := getRSISignal (match rsi with
    | some r => if r = 0 then 50 else r
    | none => 50)
  let macdSignalResult := getMACDSignal macd macdSignal macdHistogram prevHistogram
  let bollingerSignal :=
    getBollingerSignal lastCandle.close bollingerUpper bollingerMiddle bollingerLower
  let priceChange := closes.getD (closes.length - 1) 0 - closes.getD (closes.length - 2) 0
  let volumeSignal := getVolumeSignal volumeRatio priceChange
  let strengthBonus : ℤ := match nearest.nearestSupport with
    | some s => if s.strength = 0 then 1 else (s.strength : ℤ)
    | none => 1
  let signalScore : ℤ :=
    rsiSignal.strength * 4 + macdSignalResult.strength * 3 + bollingerSignal.strength * 2
    + (match sma20, sma50 with
       | some a, some b => if b < a then 2 else -2
       | _, _ => 0)
    + (match sma50, sma200 with
       | some a, some b => if b < a then 2 else -2
       | _, _ => 0)
    + (match sma20 with
       | some a => if a < lastCandle.close then 1 else -1
       | none => 0)
    + volumeSignal.strength * 3
    + (match ema200 with
       | some e => if lastCandle.close < e then -6 else 4
       | none => 0)
    + (if nearest.distanceToSupport < 3 / 2 then 2 + strengthBonus else 0)
    + (if nearest.distanceToResistance < 3 / 2 then -5 else 0)
  let trend : Trend :=
    match ema20, ema50 with
    | some a, some b =>
      if a < lastCandle.close ∧ b < a then Trend.BULLISH
      else if lastCandle.close < a ∧ a < b then Trend.BEARISH
      else Trend.SIDEWAYS
    | _, _ => Trend.SIDEWAYS
  let signal : SignalCat :=
    if 22 ≤ signalScore then SignalCat.STRONG_BUY
    else if 10 ≤ signalScore then SignalCat.BUY
    else if signalScore ≤ -22 then SignalCat.STRONG_SELL
    else if signalScore ≤ -10 then SignalCat.SELL
    else SignalCat.NEUTRAL
  { rsi := rsi
    macd := ⟨macd, macdSignal, macdHistogram⟩
    bollingerBands := ⟨bollingerUpper, bollingerMiddle, bollingerLower, bollingerWidth⟩
    movingAverages := ⟨sma20, sma50, sma200, ema20, ema50, ema200⟩
    volume := ⟨volumeSma20, volumeRatio⟩
    supportResistance :=
      ⟨priceOrNull nearest.nearestSupport,
       priceOrNull (levels.supports.get? 1),
       priceOrNull nearest.nearestResistance,
       priceOrNull (levels.resistances.get? 1),
       supportResistance.pivotPoint⟩
    trend := trend
    signal := signal
    signalScore := signalScore }

end TA

/-- Entries of a range-map list. -/
theorem rangeMap_get? {α : Type} (f : ℕ → α) (n i : ℕ) :
    ((List.range n).map f).get? i = if i < n then some (f i) else none := by
  by_cases h : i < n
  · simp [List.get?_eq_getElem?, List.getElem?_map, List.getElem?_range, h]
  · have : (List.range n)[i]? = none := by
      rw [List.getElem?_eq_none_iff]
      simpa using Nat.le_of_not_lt h
    simp [List.get?_eq_getElem?, List.getElem?_map, this, h]

/-- Claim C9: for every numeric series and period ≥ 1, `calculateSMA` and
`calculateEMA` return arrays that (a) for series of length ≥ period start
with exactly `period - 1` null entries followed by a non-null value at
every later index, and (b) for shorter series consist of nulls only. -/
theorem claim_c9 (data : List ℚ) (p : ℕ) (hp : 1 ≤ p) :
    (p ≤ data.length →
      (∀ i, i < p - 1 →
        (TA.calculateSMA data p).get? i = some none ∧
        (TA.calculateEMA data p).get? i = some none) ∧
      (∀ i, p - 1 ≤ i → i < data.length →
        (∃ v, (TA.calculateSMA data p).get? i = some (some v)) ∧
        (∃ v, (TA.calculateEMA data p).get? i = some (some v)))) ∧
    (data.length < p →
      (∀ x ∈ TA.calculateSMA data p, x = none) ∧
      (∀ x ∈ TA.calculateEMA data p, x = none)) := by
  constructor
  · intro hlen
    constructor
    · intro i hi
      have hilen : i < data.length := lt_of_lt_of_le (lt_of_lt_of_le hi (Nat.sub_le p 1)) hlen
      constructor
      · rw [TA.calculateSMA, rangeMap_get?, if_pos hilen, if_pos hi]
      · rw [TA.calculateEMA, rangeMap_get?, if_pos hilen, if_pos hi]
    · intro i hi hilen
      have hi' : ¬ i < p - 1 := Nat.not_lt.mpr hi
      constructor
      · exact ⟨_, by rw [TA.calculateSMA, rangeMap_get?, if_pos hilen, if_neg hi']⟩
      · exact ⟨_, by rw [TA.calculateEMA, rangeMap_get?, if_pos hilen, if_neg hi']⟩
  · intro hlen
    constructor
    · intro x hx
      rcases List.mem_map.mp (by simpa only [TA.calculateSMA] using hx) with ⟨i, hi, hxi⟩
      have : i < p - 1 := by
        have := List.mem_range.mp hi
        omega
      simpa [this] using hxi.symm
    · intro x hx
      rcases List.mem_map.mp (by simpa only [TA.calculateEMA] using hx) with ⟨i, hi, hxi⟩
      have : i < p - 1 := by
        have := List.mem_range.mp hi
        omega
      simpa [this] using hxi.symm

/-- Witness for C9 at a concrete series and period. -/
theorem claim_c9_witness :
    (1 ≤ 3 ∧ 3 ≤ ([4, 5, 6, 7] : List ℚ).length) ∧
    (∃ v, (TA.calculateSMA [4, 5, 6, 7] 3).get? 2 = some (some v)) := by
  refine ⟨⟨by decide, by decide⟩, ?_⟩
  exact (((claim_c9 [4, 5, 6, 7] 3 (by decide)).1 (by decide)).2 2 (by decide) (by decide)).1

/-- Every per-step gain is nonnegative. -/
theorem gains_nonneg (closes : List ℚ) : ∀ x ∈ TA.gains closes, 0 ≤ x := by
  intro x hx
  rcases List.mem_map.mp hx with ⟨c, _, hc⟩
  subst hc
  split <;> [linarith; rfl]

/-- Every per-step loss is nonnegative. -/
theorem losses_nonneg (closes : List ℚ) : ∀ x ∈ TA.losses closes, 0 ≤ x := by
  intro x hx
  rcases List.mem_map.mp hx with ⟨c, _, hc⟩
  subst hc
  split <;> [linarith; rfl]

/-- A list with nonnegative entries has nonnegative `getD _ 0`. -/
theorem getD_nonneg (l : List ℚ) (h : ∀ x ∈ l, 0 ≤ x) (k : ℕ) : 0 ≤ l.getD k 0 := by
  rw [List.getD_eq_getElem?_getD]
  cases hk : l[k]? with
  | none => simp
  | some v => simpa using h v (List.getElem?_mem hk)

/-- A list with nonnegative entries has a nonnegative sum. -/
theorem sum_nonneg_of_forall (l : List ℚ) (h : ∀ x ∈ l, 0 ≤ x) : 0 ≤ l.sum := by
  induction l with
  | nil => simp
  | cons a t ih =>
    have ha := h a (List.mem_cons_self a t)
    have ht := ih (fun x hx => h x (List.mem_cons_of_mem a hx))
    simp only [List.sum_cons]
    linarith

/-- The `calculateRSI` average gain is nonnegative. -/
theorem rsiAvgGain_nonneg (closes : List ℚ) (p i : ℕ) (hp : 1 ≤ p) :
    0 ≤ TA.rsiAvgGain closes p i := by
  have hg := gains_nonneg closes
  have hp' : (0 : ℚ) < p := by exact_mod_cast hp
  have hp1 : (0 : ℚ) ≤ (p : ℚ) - 1 := by
    have : (1 : ℚ) ≤ p := by exact_mod_cast hp
    linarith
  rw [TA.rsiAvgGain]
  split
  · refine div_nonneg (sum_nonneg_of_forall _ ?_) hp'.le
    exact fun x hx => hg x (List.mem_of_mem_take hx)
  · refine div_nonneg (add_nonneg (mul_nonneg (div_nonneg (sum_nonneg_of_forall _ ?_) hp'.le) hp1)
      (getD_nonneg _ hg _)) hp'.le
    exact fun x hx => hg x (List.mem_of_mem_drop (List.mem_of_mem_take hx))

/-- The `calculateRSI` average loss is nonnegative. -/
theorem rsiAvgLoss_nonneg (closes : List ℚ) (p i : ℕ) (hp : 1 ≤ p) :
    0 ≤ TA.rsiAvgLoss closes p i := by
  have hg := losses_nonneg closes
  have hp' : (0 : ℚ) < p := by exact_mod_cast hp
  have hp1 : (0 : ℚ) ≤ (p : ℚ) - 1 := by
    have : (1 : ℚ) ≤ p := by exact_mod_cast hp
    linarith
  rw [TA.rsiAvgLoss]
  split
  · refine div_nonneg (sum_nonneg_of_forall _ ?_) hp'.le
    exact fun x hx => hg x (List.mem_of_mem_take hx)
  · refine div_nonneg (add_nonneg (mul_nonneg (div_nonneg (sum_nonneg_of_forall _ ?_) hp'.le) hp1)
      (getD_nonneg _ hg _)) hp'.le
    exact fun x hx => hg x (List.mem_of_mem_drop (List.mem_of_mem_take hx))

/-- Claim C1: every non-null entry of `calculateRSI` lies in `[0, 100]`,
and at every index where the computed average loss is `0` the entry is
exactly `100`. -/
theorem claim_c1 (closes : List ℚ) (p : ℕ) (hp : 1 ≤ p) :
    (∀ i v, (TA.calculateRSI closes p).get? i = some (some v) → 0 ≤ v ∧ v ≤ 100) ∧
    (∀ i, p ≤ i → i < closes.length → TA.rsiAvgLoss closes p i = 0 →
      (TA.calculateRSI closes p).get? i = some (some 100)) := by
  constructor
  · intro i v hv
    rw [TA.calculateRSI, rangeMap_get?] at hv
    by_cases hilen : i < closes.length
    · rw [if_pos hilen] at hv
      have hv' := Option.some.inj hv
      rw [TA.rsiEntry] at hv'
      by_cases hip : i < p
      · simp [hip] at hv'
      · rw [if_neg hip] at hv'
        by_cases hzero : TA.rsiAvgLoss closes p i = 0
        · rw [if_pos hzero] at hv'
          have := Option.some.inj hv'
          constructor <;> simp [← this]
        · rw [if_neg hzero] at hv'
          have hveq := Option.some.inj hv'
          have hG := rsiAvgGain_nonneg closes p i hp
          have hL := lt_of_le_of_ne (rsiAvgLoss_nonneg closes p i hp) (Ne.symm hzero)
          have hrs : 0 ≤ TA.rsiAvgGain closes p i / TA.rsiAvgLoss closes p i :=
            div_nonneg hG hL.le
          have hden : (0 : ℚ) < 1 + TA.rsiAvgGain closes p i / TA.rsiAvgLoss closes p i := by
            linarith
          have hle : (100 : ℚ) / (1 + TA.rsiAvgGain closes p i / TA.rsiAvgLoss closes p i) ≤ 100 := by
            apply div_le_self (by norm_num)
            linarith
          have hpos : (0 : ℚ) < 100 / (1 + TA.rsiAvgGain closes p i / TA.rsiAvgLoss closes p i) :=
            div_pos (by norm_num) hden
          constructor <;> [linarith [hveq]; linarith [hveq]]
    · rw [if_neg hilen] at hv
      exact absurd hv (by simp)
  · intro i hpi hilen hzero
    rw [TA.calculateRSI, rangeMap_get?, if_pos hilen, TA.rsiEntry,
      if_neg (Nat.not_lt.mpr hpi), if_pos hzero]

/-- Witness for C1 at a concrete series and period. -/
theorem claim_c1_witness :
    ((1 : ℕ) ≤ 1 ∧ 1 ≤ 1 ∧ 1 < ([1, 2] : List ℚ).length ∧ TA.rsiAvgLoss [1, 2] 1 1 = 0) ∧
    (TA.calculateRSI [1, 2] 1).get? 1 = some (some 100) := by
  have hzero : TA.rsiAvgLoss [1, 2] 1 1 = 0 := by
    norm_num [TA.rsiAvgLoss, TA.losses, TA.changes]
  refine ⟨⟨by decide, by decide, by decide, hzero⟩, ?_⟩
  exact (claim_c1 [1, 2] 1 (by decide)).2 1 (by decide) (by decide) hzero

/-- Counterexample to claim C2: on `closes = [10,12,10,11]` with period 2,
the code's full-array RSI at index 3 is `60`, while the Wilder-carried
recurrence described by the spec yields `200/3` — the code does not carry
the smoothed average forward from index `i-1`. -/
theorem claim_c2_counterexample :
    (TA.calculateRSI [10, 12, 10, 11] 2).get? 3 = some (some 60) ∧
    TA.specWilderRSI [10, 12, 10, 11] 2 3 = 200 / 3 ∧
    (60 : ℚ) ≠ 200 / 3 := by
  refine ⟨?_, ?_, by norm_num⟩
  · norm_num [TA.calculateRSI, TA.rsiEntry, TA.rsiAvgGain, TA.rsiAvgLoss, TA.gains, TA.losses,
      TA.changes, List.getD, List.range_succ]
  · norm_num [TA.specWilderRSI, TA.specWilderAvgGain, TA.specWilderAvgLoss, TA.gains, TA.losses,
      TA.changes, List.getD]

/-- `changes` commutes with `drop`. -/
theorem changes_drop (l : List ℚ) (a : ℕ) :
    TA.changes (l.drop a) = (TA.changes l).drop a := by
  rw [TA.changes, TA.changes, List.tail_drop, ← List.drop_tail, ← List.drop_zipWith]

/-- `changes` of a prefix is a prefix of `changes`. -/
theorem changes_take (l : List ℚ) (n : ℕ) :
    TA.changes (l.take n) = (TA.changes l).take (n - 1) := by
  apply List.ext_getElem?
  intro j
  have htail : (l.take n).tail = l.tail.take (n - 1) := by
    rw [← List.drop_one, List.drop_take, List.drop_one]
  rw [TA.changes, TA.changes, htail]
  by_cases hj : j < n - 1
  · rw [List.getElem?_take_of_lt hj, List.getElem?_zipWith, List.getElem?_zipWith,
      List.getElem?_take_of_lt hj, List.getElem?_take_of_lt (show j < n by omega)]
  · have h1 : (l.tail.take (n - 1))[j]? = none := by
      rw [List.getElem?_eq_none_iff, List.length_take]
      omega
    have h2 : ((List.zipWith (fun a b => a - b) l.tail l).take (n - 1))[j]? = none := by
      rw [List.getElem?_eq_none_iff, List.length_take]
      omega
    rw [h2, List.getElem?_zipWith, h1]

/-- `gains` commutes with the `drop`/`take` window. -/
theorem gains_window (l : List ℚ) (a n : ℕ) :
    TA.gains ((l.drop a).take n) = ((TA.gains l).drop a).take (n - 1) := by
  rw [TA.gains, changes_take, changes_drop, List.map_take, List.map_drop, TA.gains]

/-- `losses` commutes with the `drop`/`take` window. -/
theorem losses_window (l : List ℚ) (a n : ℕ) :
    TA.losses ((l.drop a).take n) = ((TA.losses l).drop a).take (n - 1) := by
  rw [TA.losses, changes_take, changes_drop, List.map_take, List.map_drop, TA.losses]

/-- Claim C2, amended: for `i > period` the full-array RSI recomputes the
previous average as the simple mean of the trailing `period` per-step
gains/losses ending at step `i-1` (not the smoothed average carried from
index `i-1`); consequently the value at `i` depends only on the
`period + 2` closes ending at index `i` — it equals the value the
calculator produces at index `period + 1` of that window alone. -/
theorem claim_c2_amended (closes : List ℚ) (p i : ℕ) (hp : 1 ≤ p) (hpi : p < i)
    (hlen : i < closes.length) :
    (TA.calculateRSI closes p).get? i =
      (TA.calculateRSI ((closes.drop (i - (p + 1))).take (p + 2)) p).get? (p + 1) := by
  set a := i - (p + 1) with ha
  set w := (closes.drop a).take (p + 2) with hw
  have hwlen : w.length = p + 2 := by
    rw [hw, List.length_take, List.length_drop]
    omega
  have hgw : TA.gains w = ((TA.gains closes).drop a).take (p + 1) := by
    simpa using gains_window closes a (p + 2)
  have hlw : TA.losses w = ((TA.losses closes).drop a).take (p + 1) := by
    simpa using losses_window closes a (p + 2)
  have hdrop : ∀ m : List ℚ, ((m.drop a).take (p + 1)).drop 1 = (m.drop (i - p)).take p := by
    intro m
    rw [List.drop_take, List.drop_drop, show a + 1 = i - p from by omega,
      show p + 1 - 1 = p from by omega]
  have hgetD : ∀ m : List ℚ, (((m.drop a).take (p + 1)).getD p 0) = m.getD (i - 1) 0 := by
    intro m
    rw [List.getD_eq_getElem?_getD, List.getD_eq_getElem?_getD,
      List.getElem?_take_of_lt (Nat.lt_succ_self p), List.getElem?_drop,
      show a + p = i - 1 from by omega]
  have hG : TA.rsiAvgGain w p (p + 1) = TA.rsiAvgGain closes p i := by
    rw [TA.rsiAvgGain, TA.rsiAvgGain, if_neg (by omega : ¬ p + 1 = p), if_neg (by omega : ¬ i = p),
      hgw, show p + 1 - p = 1 from by omega, show p + 1 - 1 = p from by omega,
      hdrop, hgetD, List.take_take, min_self]
  have hL : TA.rsiAvgLoss w p (p + 1) = TA.rsiAvgLoss closes p i := by
    rw [TA.rsiAvgLoss, TA.rsiAvgLoss, if_neg (by omega : ¬ p + 1 = p), if_neg (by omega : ¬ i = p),
      hlw, show p + 1 - p = 1 from by omega, show p + 1 - 1 = p from by omega,
      hdrop, hgetD, List.take_take, min_self]
  have hplt : p + 1 < w.length := by
    rw [hwlen]
    omega
  rw [TA.calculateRSI, TA.calculateRSI, rangeMap_get?, rangeMap_get?, if_pos hlen,
    if_pos hplt, TA.rsiEntry, TA.rsiEntry,
    if_neg (by omega : ¬ i < p), if_neg (by omega : ¬ p + 1 < p), hG, hL]

/-- Witness for the amended C2 at a concrete series, period and index. -/
theorem claim_c2_amended_witness :
    ((1 : ℕ) ≤ 2 ∧ 2 < 4 ∧ 4 < ([10, 12, 10, 11, 11] : List ℚ).length) ∧
    (TA.calculateRSI [10, 12, 10, 11, 11] 2).get? 4 =
      (TA.calculateRSI ((([10, 12, 10, 11, 11] : List ℚ).drop 1).take 4) 2).get? 3 :=
  ⟨⟨by decide, by decide, by decide⟩,
    claim_c2_amended [10, 12, 10, 11, 11] 2 4 (by decide) (by decide) (by decide)⟩

/-- `calculateEMA` preserves length. -/
theorem calculateEMA_length (data : List ℚ) (p : ℕ) :
    (TA.calculateEMA data p).length = data.length := by
  rw [TA.calculateEMA, List.length_map, List.length_range]

/-- The MACD line has one entry per close. -/
theorem macd_length (closes : List ℚ) :
    (TA.calculateMACD closes).macd.length = closes.length := by
  rw [TA.calculateMACD, List.length_zipWith, calculateEMA_length, calculateEMA_length, min_self]

/-- Counterexample to claim C3: with nine constant closes there are no
MACD-line values at all (the MACD line is all null), yet the signal line
is already non-null at index 8 — it is the 9-period EMA of the
zero-padded MACD line, not of actual MACD-line values. -/
theorem claim_c3_counterexample :
    (TA.calculateMACD (List.replicate 9 (1 : ℚ))).signal.get? 8 = some (some 0) ∧
    (TA.calculateMACD (List.replicate 9 (1 : ℚ))).macd = List.replicate 9 none := by
  constructor
  · norm_num [TA.calculateMACD, TA.calculateEMA, TA.emaVal, TA.emaSeed, TA.optSub,
      List.replicate, List.range_succ, List.get?_eq_getElem?]
  · norm_num [TA.calculateMACD, TA.calculateEMA, TA.emaVal, TA.emaSeed, TA.optSub,
      List.replicate, List.range_succ]

/-- Claim C3, amended: the histogram satisfies
`histogram[i] = macd[i] - signal[i]` at every index where both are
non-null, but the signal line is the 9-period EMA of the MACD line with
nulls replaced by `0`: for at least nine closes it is non-null exactly
from index 8 on, regardless of where actual MACD-line values start. -/
theorem claim_c3_amended (closes : List ℚ) :
    (∀ i m s, (TA.calculateMACD closes).macd.get? i = some (some m) →
      (TA.calculateMACD closes).signal.get? i = some (some s) →
      (TA.calculateMACD closes).histogram.get? i = some (some (m - s))) ∧
    (9 ≤ closes.length → ∀ i, i < closes.length →
      ((TA.calculateMACD closes).signal.get? i = some none ↔ i < 8)) := by
  have hvalidlen :
      ((List.zipWith TA.optSub (TA.calculateEMA closes 12) (TA.calculateEMA closes 26)).map
        (fun v => v.getD 0)).length = closes.length := by
    rw [List.length_map, List.length_zipWith, calculateEMA_length, calculateEMA_length, min_self]
  constructor
  · intro i m s hm hs
    rw [TA.calculateMACD] at hm hs ⊢
    simp only [List.get?_eq_getElem?] at hm hs ⊢
    rw [List.getElem?_zipWith, hm, hs]
    rfl
  · intro hlen i hi
    rw [TA.calculateMACD]
    simp only []
    rw [TA.calculateEMA, hvalidlen, rangeMap_get?, if_pos hi]
    by_cases h8 : i < 8
    · simp [h8]
    · simp [h8, show ¬ i < 9 - 1 from h8]

/-- Witness for the amended C3 at a concrete input. -/
theorem claim_c3_witness :
    (9 ≤ (List.replicate 9 (1 : ℚ)).length ∧ 3 < (List.replicate 9 (1 : ℚ)).length) ∧
    ((TA.calculateMACD (List.replicate 9 (1 : ℚ))).signal.get? 3 = some none ↔ 3 < 8) :=
  ⟨⟨by decide, by decide⟩,
    (claim_c3_amended (List.replicate 9 (1 : ℚ))).2 (by decide) 3 (by decide)⟩

/-- Counterexample to claim C8: on `cex8` (with the default lookback 100
and threshold 0.02) both zero-priced support candidates survive merging —
the candidate-relative distance check divides by the candidate price `0`,
which in JavaScript yields `NaN`/`Infinity` and never merges — so
`supports` has prices `[0, 0]`, which is not strictly descending. -/
theorem claim_c8_counterexample :
    ((TA.findSupportResistance cex8 100 (2 / 100)).supports.map TA.PriceLevel.price = [0, 0]) ∧
    ¬ List.Pairwise (fun a b : TA.PriceLevel => b.price < a.price)
        (TA.findSupportResistance cex8 100 (2 / 100)).supports := by
  have h : (TA.findSupportResistance cex8 100 (2 / 100)).supports.map TA.PriceLevel.price
      = [0, 0] := by
    norm_num [cex8, TA.findSupportResistance, TA.srMerged, TA.srRecent, TA.srCandidates,
      TA.mergeInto, TA.nearbyMatch, TA.mergeUpdate, TA.dummyCandle, TA.priceLE, TA.priceGE,
      List.insertionSort, List.orderedInsert, List.range', List.getD, TA.calculatePivotPoints]
  refine ⟨h, fun hp => ?_⟩
  have h2 : List.Pairwise (fun a b : ℚ => b < a)
      ((TA.findSupportResistance cex8 100 (2 / 100)).supports.map TA.PriceLevel.price) :=
    List.Pairwise.map _ (fun _ _ hab => hab) hp
  rw [h] at h2
  exact absurd (List.rel_of_pairwise_cons h2 (List.mem_singleton.mpr rfl)) (lt_irrefl 0)

/-- `mergeUpdate` keeps the level's type. -/
theorem mergeUpdate_type (l c : TA.PriceLevel) : (TA.mergeUpdate l c).type = l.type := rfl

/-- `mergeUpdate` keeps the price positive. -/
theorem mergeUpdate_price_pos (l c : TA.PriceLevel) (hl : 0 < l.price) (hc : 0 < c.price) :
    0 < (TA.mergeUpdate l c).price := by
  have ht : (0 : ℚ) ≤ (l.touches : ℚ) := by positivity
  have : (0 : ℚ) < (l.touches : ℚ) + 1 := by linarith
  exact div_pos (by nlinarith) this

/-- `mergeUpdate` respects a common upper bound on prices. -/
theorem mergeUpdate_price_le (l c : TA.PriceLevel) (b : ℚ) (hl : l.price ≤ b)
    (hc : c.price ≤ b) : (TA.mergeUpdate l c).price ≤ b := by
  have ht : (0 : ℚ) ≤ (l.touches : ℚ) := by positivity
  have hpos : (0 : ℚ) < (l.touches : ℚ) + 1 := by linarith
  rw [TA.mergeUpdate, div_le_iff₀ hpos]
  nlinarith

/-- `mergeUpdate` does not decrease the price when the incoming candidate
is at least as expensive. -/
theorem mergeUpdate_price_ge (l c : TA.PriceLevel) (hlc : l.price ≤ c.price) :
    l.price ≤ (TA.mergeUpdate l c).price := by
  have ht : (0 : ℚ) ≤ (l.touches : ℚ) := by positivity
  have hpos : (0 : ℚ) < (l.touches : ℚ) + 1 := by linarith
  rw [TA.mergeUpdate, le_div_iff₀ hpos]
  nlinarith

/-- A same-type level below the candidate that does not merge is at least
a `threshold`-fraction below it. -/
theorem gapRel_of_not_match (θ : ℚ) (c l : TA.PriceLevel) (htype : l.type = c.type)
    (hc : 0 < c.price) (hle : l.price ≤ c.price) (hnm : ¬ TA.nearbyMatch θ c l) :
    TA.gapRel θ l c := by
  rw [TA.nearbyMatch] at hnm
  push_neg at hnm
  have h := hnm htype (ne_of_gt hc)
  rw [le_div_iff₀ hc, abs_of_nonpos (by linarith)] at h
  rw [TA.gapRel]
  nlinarith

/-- A level that satisfies the gap relation to some level bounded by the
candidate's price cannot itself merge with the candidate. -/
theorem not_match_of_gapRel (θ : ℚ) (hθ : 0 < θ) (c l n : TA.PriceLevel)
    (hrel : TA.gapRel θ l n) (hl : 0 < l.price) (hn : 0 < n.price) (hc : 0 < c.price)
    (hnc : n.price ≤ c.price) : ¬ TA.nearbyMatch θ c l := by
  rw [TA.gapRel] at hrel
  have h1θ : 0 < 1 - θ := by nlinarith
  have hlc : l.price ≤ (1 - θ) * c.price := le_trans hrel (by nlinarith)
  rw [TA.nearbyMatch]
  rintro ⟨-, -, habs⟩
  rw [div_lt_iff₀ hc, abs_of_nonpos (by nlinarith)] at habs
  nlinarith

/-- Every element of `mergeInto` is an old level, the candidate itself,
or an updated old level. -/
theorem mergeInto_mem (θ : ℚ) (acc : List TA.PriceLevel) (c : TA.PriceLevel) :
    ∀ L ∈ TA.mergeInto θ acc c,
      L ∈ acc ∨ L = c ∨ ∃ l ∈ acc, L = TA.mergeUpdate l c := by
  induction acc with
  | nil =>
    intro L hL
    rw [TA.mergeInto] at hL
    exact Or.inr (Or.inl (List.mem_singleton.mp hL))
  | cons l ls ih =>
    intro L hL
    rw [TA.mergeInto] at hL
    split at hL
    · rcases List.mem_cons.mp hL with h | h
      · exact Or.inr (Or.inr ⟨l, List.mem_cons_self l ls, h⟩)
      · exact Or.inl (List.mem_cons_of_mem l h)
    · rcases List.mem_cons.mp hL with h | h
      · exact Or.inl (h ▸ List.mem_cons_self l ls)
      · rcases ih L h with h' | h' | ⟨l', hl', he⟩
        · exact Or.inl (List.mem_cons_of_mem l h')
        · exact Or.inr (Or.inl h')
        · exact Or.inr (Or.inr ⟨l', List.mem_cons_of_mem l hl', he⟩)

/-- `mergeInto` with a candidate of another type does not change the
levels of type `t`. -/
theorem filter_mergeInto_ne (θ : ℚ) (c : TA.PriceLevel) (t : TA.LevelType) (h : c.type ≠ t) :
    ∀ acc : List TA.PriceLevel,
      (TA.mergeInto θ acc c).filter (fun l => l.type = t) = acc.filter (fun l => l.type = t) := by
  intro acc
  induction acc with
  | nil => simp [TA.mergeInto, h]
  | cons l ls ih =>
    simp only [TA.mergeInto]
    by_cases hm : TA.nearbyMatch θ c l
    · rw [if_pos hm]
      have hlt : l.type = c.type := hm.1
      have h1 : ¬ ((TA.mergeUpdate l c).type = t) := by rw [mergeUpdate_type, hlt]; exact h
      have h2 : ¬ (l.type = t) := by rw [hlt]; exact h
      simp [List.filter_cons, h1, h2]
    · rw [if_neg hm]
      simp [List.filter_cons, ih]

/-- `mergeInto` with a candidate of type `t` acts on the type-`t`
sublist exactly as `mergeInto` on the filtered list. -/
theorem filter_mergeInto_eq (θ : ℚ) (c : TA.PriceLevel) (t : TA.LevelType) (h : c.type = t) :
    ∀ acc : List TA.PriceLevel,
      (TA.mergeInto θ acc c).filter (fun l => l.type = t) =
        TA.mergeInto θ (acc.filter (fun l => l.type = t)) c := by
  intro acc
  induction acc with
  | nil => simp [TA.mergeInto, h]
  | cons l ls ih =>
    simp only [TA.mergeInto]
    by_cases hlt : l.type = t
    · by_cases hm : TA.nearbyMatch θ c l
      · rw [if_pos hm]
        have hut : (TA.mergeUpdate l c).type = t := by rw [mergeUpdate_type]; exact hlt
        have e1 : List.filter (fun l => decide (l.type = t)) (TA.mergeUpdate l c :: ls)
            = TA.mergeUpdate l c :: List.filter (fun l => decide (l.type = t)) ls := by
          simp [List.filter_cons, hut]
        have e2 : List.filter (fun l => decide (l.type = t)) (l :: ls)
            = l :: List.filter (fun l => decide (l.type = t)) ls := by
          simp [List.filter_cons, hlt]
        rw [e1, e2, TA.mergeInto, if_pos hm]
      · rw [if_neg hm]
        have e2 : List.filter (fun l => decide (l.type = t)) (l :: ls)
            = l :: List.filter (fun l => decide (l.type = t)) ls := by
          simp [List.filter_cons, hlt]
        have e3 : List.filter (fun l => decide (l.type = t)) (l :: TA.mergeInto θ ls c)
            = l :: List.filter (fun l => decide (l.type = t)) (TA.mergeInto θ ls c) := by
          simp [List.filter_cons, hlt]
        rw [e3, e2, ih, TA.mergeInto, if_neg hm]
    · have hm : ¬ TA.nearbyMatch θ c l := fun hmm => hlt (hmm.1.trans h)
      rw [if_neg hm]
      have e4 : List.filter (fun l => decide (l.type = t)) (l :: TA.mergeInto θ ls c)
          = List.filter (fun l => decide (l.type = t)) (TA.mergeInto θ ls c) := by
        simp [List.filter_cons, hlt]
      have e5 : List.filter (fun l => decide (l.type = t)) (l :: ls)
          = List.filter (fun l => decide (l.type = t)) ls := by
        simp [List.filter_cons, hlt]
      rw [e4, e5, ih]

/-- Folding a candidate into a homogeneous merged list preserves the gap
chain, provided every existing level is positive and bounded by the
candidate's price. -/
theorem mergeInto_chain (θ : ℚ) (hθ : 0 < θ) (c : TA.PriceLevel) (hc : 0 < c.price) :
    ∀ ms : List TA.PriceLevel,
      (∀ L ∈ ms, 0 < L.price ∧ L.price ≤ c.price) →
      (∀ L ∈ ms, L.type = c.type) →
      List.Chain' (TA.gapRel θ) ms →
      List.Chain' (TA.gapRel θ) (TA.mergeInto θ ms c) := by
  intro ms
  induction ms with
  | nil =>
    intro _ _ _
    rw [TA.mergeInto]
    exact List.chain'_singleton c
  | cons l ls ih =>
    intro hb htype hch
    rw [TA.mergeInto]
    by_cases hm : TA.nearbyMatch θ c l
    · rw [if_pos hm]
      cases ls with
      | nil => exact List.chain'_singleton _
      | cons n ls' =>
        exfalso
        have hrel : TA.gapRel θ l n := (List.chain'_cons.mp hch).1
        have hl := (hb l (List.mem_cons_self _ _)).1
        have hn := hb n (List.mem_cons_of_mem _ (List.mem_cons_self _ _))
        exact not_match_of_gapRel θ hθ c l n hrel hl hn.1 hc hn.2 hm
    · rw [if_neg hm]
      have hbtail : ∀ L ∈ ls, 0 < L.price ∧ L.price ≤ c.price :=
        fun L hL => hb L (List.mem_cons_of_mem _ hL)
      have httail : ∀ L ∈ ls, L.type = c.type :=
        fun L hL => htype L (List.mem_cons_of_mem _ hL)
      have hchtail : List.Chain' (TA.gapRel θ) ls := hch.tail
      have ihc := ih hbtail httail hchtail
      rw [List.chain'_cons']
      refine ⟨?_, ihc⟩
      intro y hy
      have hl := hb l (List.mem_cons_self _ _)
      cases ls with
      | nil =>
        rw [TA.mergeInto] at hy
        simp only [List.head?_cons, Option.mem_def, Option.some.injEq] at hy
        subst hy
        exact gapRel_of_not_match θ c l (htype l (List.mem_cons_self _ _)) hc hl.2 hm
      | cons n ls' =>
        have hrel : TA.gapRel θ l n := (List.chain'_cons.mp hch).1
        have hn := hb n (List.mem_cons_of_mem _ (List.mem_cons_self _ _))
        have h1θ : 0 < 1 - θ := by
          rw [TA.gapRel] at hrel
          nlinarith [hl.1, hn.1]
        rw [TA.mergeInto] at hy
        split at hy
        · simp only [List.head?_cons, Option.mem_def, Option.some.injEq] at hy
          subst hy
          have hup : n.price ≤ (TA.mergeUpdate n c).price := mergeUpdate_price_ge n c hn.2
          rw [TA.gapRel] at hrel ⊢
          nlinarith
        · simp only [List.head?_cons, Option.mem_def, Option.some.injEq] at hy
          subst hy
          exact hrel

/-- In-bounds `getD` is a member. -/
theorem getD_mem_of_lt {α : Type} (l : List α) (n : ℕ) (d : α) (h : n < l.length) :
    l.getD n d ∈ l := by
  rw [List.getD_eq_getElem?_getD, List.getElem?_eq_getElem h]
  exact List.getElem_mem h

/-- Every support/resistance candidate carries a price that is the high
or the low of some candle of the window. -/
theorem srCandidates_pos (recent : List TA.Candle)
    (hpos : ∀ c ∈ recent, 0 < c.low ∧ 0 < c.high) :
    ∀ L ∈ TA.srCandidates recent, 0 < L.price := by
  intro L hL
  rw [TA.srCandidates] at hL
  rcases List.mem_flatMap.mp hL with ⟨i, hi, hmem⟩
  have hilt : i < recent.length := by
    rcases List.mem_range'.mp hi with ⟨k, hk, rfl⟩
    omega
  have hmemc := hpos _ (getD_mem_of_lt recent i TA.dummyCandle hilt)
  rcases List.mem_append.mp hmem with h | h
  · split at h
    · rw [List.mem_singleton.mp h]
      exact hmemc.2
    · exact absurd h (List.not_mem_nil L)
  · split at h
    · rw [List.mem_singleton.mp h]
      exact hmemc.1
    · exact absurd h (List.not_mem_nil L)

/-- Invariant of the merge fold: processing price-ascending positive
candidates keeps every merged level positive and keeps the per-type gap
chains. -/
theorem fold_merge_inv (θ : ℚ) (hθ : 0 < θ) :
    ∀ cs acc : List TA.PriceLevel,
      List.Pairwise TA.priceLE cs →
      (∀ c ∈ cs, 0 < c.price) →
      (∀ L ∈ acc, 0 < L.price ∧ ∀ c ∈ cs, L.price ≤ c.price) →
      (∀ t, List.Chain' (TA.gapRel θ) (acc.filter (fun l => l.type = t))) →
      (∀ L ∈ cs.foldl (TA.mergeInto θ) acc, 0 < L.price) ∧
      (∀ t, List.Chain' (TA.gapRel θ)
        ((cs.foldl (TA.mergeInto θ) acc).filter (fun l => l.type = t))) := by
  intro cs
  induction cs with
  | nil =>
    intro acc _ _ hb hch
    exact ⟨fun L hL => (hb L hL).1, hch⟩
  | cons c cs' ih =>
    intro acc hsort hcpos hb hch
    have hc : 0 < c.price := hcpos c (List.mem_cons_self _ _)
    have hsort' := (List.pairwise_cons.mp hsort).2
    have hhead := (List.pairwise_cons.mp hsort).1
    have hb' : ∀ L ∈ TA.mergeInto θ acc c, 0 < L.price ∧ ∀ d ∈ cs', L.price ≤ d.price := by
      intro L hL
      rcases mergeInto_mem θ acc c L hL with h | h | ⟨l, hl, he⟩
      · exact ⟨(hb L h).1, fun d hd => (hb L h).2 d (List.mem_cons_of_mem _ hd)⟩
      · subst h
        exact ⟨hc, fun d hd => hhead d hd⟩
      · subst he
        refine ⟨mergeUpdate_price_pos l c (hb l hl).1 hc, fun d hd => ?_⟩
        exact mergeUpdate_price_le l c d.price ((hb l hl).2 d (List.mem_cons_of_mem _ hd))
          (hhead d hd)
    have hch' : ∀ t, List.Chain' (TA.gapRel θ)
        ((TA.mergeInto θ acc c).filter (fun l => l.type = t)) := by
      intro t
      by_cases hct : c.type = t
      · rw [filter_mergeInto_eq θ c t hct]
        refine mergeInto_chain θ hθ c hc _ ?_ ?_ (hch t)
        · intro L hL
          have hLa := List.mem_of_mem_filter hL
          exact ⟨(hb L hLa).1, (hb L hLa).2 c (List.mem_cons_self _ _)⟩
        · intro L hL
          have := List.of_mem_filter hL
          simp only [decide_eq_true_eq] at this
          rw [this, hct]
      · rw [filter_mergeInto_ne θ c t hct]
        exact hch t
    simpa using ih (TA.mergeInto θ acc c) hsort' (fun d hd => hcpos d (List.mem_cons_of_mem _ hd))
      hb' hch'

/-- A positive gap chain is strictly price-increasing. -/
theorem chain_gapRel_strict (θ : ℚ) (hθ : 0 < θ) :
    ∀ ms : List TA.PriceLevel, (∀ L ∈ ms, 0 < L.price) →
      List.Chain' (TA.gapRel θ) ms → List.Pairwise TA.priceLT ms := by
  intro ms
  induction ms with
  | nil => intro _ _; exact List.Pairwise.nil
  | cons a tl ih =>
    intro hpos hch
    rw [← List.chain'_iff_pairwise]
    rw [← List.chain'_iff_pairwise] at ih
    cases tl with
    | nil => exact List.chain'_singleton a
    | cons b tl' =>
      have h1 := (List.chain'_cons.mp hch).1
      have h2 := (List.chain'_cons.mp hch).2
      have hb := hpos b (List.mem_cons_of_mem _ (List.mem_cons_self _ _))
      have hab : TA.priceLT a b := by
        rw [TA.priceLT]
        rw [TA.gapRel] at h1
        nlinarith
      exact List.chain'_cons.mpr ⟨hab,
        ih (fun L hL => hpos L (List.mem_cons_of_mem _ hL)) h2⟩

/-- Claim C8, amended: for every candle series whose lows and highs are
all positive (and any positive merge threshold), `findSupportResistance`
returns `supports` strictly descending and `resistances` strictly
ascending by price.  (With a zero-priced candle the candidate-relative
merge test never fires — IEEE `NaN`/`Infinity` compare false — and equal
zero prices can repeat, as the counterexample shows.) -/
theorem claim_c8_amended (candles : List TA.Candle) (lookback : ℕ) (θ : ℚ) (hθ : 0 < θ)
    (hpos : ∀ c ∈ candles, 0 < c.low ∧ 0 < c.high) :
    List.Pairwise (fun a b : TA.PriceLevel => b.price < a.price)
      (TA.findSupportResistance candles lookback θ).supports ∧
    List.Pairwise (fun a b : TA.PriceLevel => a.price < b.price)
      (TA.findSupportResistance candles lookback θ).resistances := by
  rw [TA.findSupportResistance]
  split
  · exact ⟨List.Pairwise.nil, List.Pairwise.nil⟩
  · have hrecpos : ∀ c ∈ TA.srRecent candles lookback, 0 < c.low ∧ 0 < c.high :=
      fun c hc => hpos c (List.mem_of_mem_drop hc)
    have hcand := srCandidates_pos _ hrecpos
    have hsortedPW : List.Pairwise TA.priceLE
        (List.insertionSort TA.priceLE (TA.srCandidates (TA.srRecent candles lookback))) :=
      List.sorted_insertionSort TA.priceLE _
    have hsortedpos : ∀ c ∈ List.insertionSort TA.priceLE
        (TA.srCandidates (TA.srRecent candles lookback)), 0 < c.price := fun c hcmem =>
      hcand c ((List.perm_insertionSort TA.priceLE _).mem_iff.mp hcmem)
    have hfold := fold_merge_inv θ hθ
      (List.insertionSort TA.priceLE (TA.srCandidates (TA.srRecent candles lookback))) []
      hsortedPW hsortedpos (fun L hL => absurd hL (List.not_mem_nil L))
      (fun t => by simp)
    have hmpos : ∀ L ∈ TA.srMerged candles lookback θ, 0 < L.price := by
      rw [TA.srMerged]
      exact hfold.1
    have hmchain : ∀ t, List.Chain' (TA.gapRel θ)
        ((TA.srMerged candles lookback θ).filter (fun l => l.type = t)) := by
      intro t
      rw [TA.srMerged]
      exact hfold.2 t
    constructor
    · have hstrict : List.Pairwise TA.priceLT
          ((TA.srMerged candles lookback θ).filter
            (fun l => l.type = TA.LevelType.support)) :=
        chain_gapRel_strict θ hθ _
          (fun L hL => hmpos L (List.mem_of_mem_filter hL))
          (hmchain TA.LevelType.support)
      have hne : List.Pairwise (fun a b : TA.PriceLevel => a.price ≠ b.price)
          ((TA.srMerged candles lookback θ).filter
            (fun l => l.type = TA.LevelType.support)) :=
        hstrict.imp (fun h => ne_of_lt h)
      have hne' := (List.Perm.pairwise_iff (fun h => h.symm)
        (List.perm_insertionSort TA.priceGE _)).mpr hne
      have hsorted : List.Pairwise TA.priceGE
          (List.insertionSort TA.priceGE
            ((TA.srMerged candles lookback θ).filter
              (fun l => l.type = TA.LevelType.support))) :=
        List.sorted_insertionSort TA.priceGE _
      exact (hsorted.and hne').imp (fun h => lt_of_le_of_ne h.1 (Ne.symm h.2))
    · have hstrict : List.Pairwise TA.priceLT
          ((TA.srMerged candles lookback θ).filter
            (fun l => l.type = TA.LevelType.resistance)) :=
        chain_gapRel_strict θ hθ _
          (fun L hL => hmpos L (List.mem_of_mem_filter hL))
          (hmchain TA.LevelType.resistance)
      have hne : List.Pairwise (fun a b : TA.PriceLevel => a.price ≠ b.price)
          ((TA.srMerged candles lookback θ).filter
            (fun l => l.type = TA.LevelType.resistance)) :=
        hstrict.imp (fun h => ne_of_lt h)
      have hne' := (List.Perm.pairwise_iff (fun h => h.symm)
        (List.perm_insertionSort TA.priceLE _)).mpr hne
      have hsorted : List.Pairwise TA.priceLE
          (List.insertionSort TA.priceLE
            ((TA.srMerged candles lookback θ).filter
              (fun l => l.type = TA.LevelType.resistance))) :=
        List.sorted_insertionSort TA.priceLE _
      exact (hsorted.and hne').imp (fun h => lt_of_le_of_ne h.1 h.2)

/-- Witness for the amended C8 at a concrete positive-price series. -/
theorem claim_c8_amended_witness :
    ((0 : ℚ) < 2 / 100 ∧ ∀ c ∈ wit8, 0 < c.low ∧ 0 < c.high) ∧
    List.Pairwise (fun a b : TA.PriceLevel => b.price < a.price)
      (TA.findSupportResistance wit8 100 (2 / 100)).supports := by
  have h1 : (0 : ℚ) < 2 / 100 := by norm_num
  have h2 : ∀ c ∈ wit8, 0 < c.low ∧ 0 < c.high := by
    intro c hc
    simp only [wit8, List.mem_cons, List.not_mem_nil, or_false] at hc
    rcases hc with h | h | h | h | h | h | h | h | h | h <;> subst h <;> norm_num
  exact ⟨⟨h1, h2⟩, (claim_c8_amended wit8 100 (2 / 100) h1 h2).1⟩

/-- `sellPnlSum` over an appended trade. -/
theorem sellPnlSum_append (tr : List Route.BacktestTrade) (t : Route.BacktestTrade) :
    Route.sellPnlSum (tr ++ [t]) = Route.sellPnlSum tr + t.pnl.getD 0 := by
  simp [Route.sellPnlSum]

/-- The equity/drawdown bookkeeping does not affect the conservation
invariant. -/
theorem conservInv_bookkeeping (cfg : Route.BacktestConfig) (st : Route.BTState)
    (ec : List Route.EquityPoint) (pk dd : ℚ) :
    Route.conservInv cfg { st with equityCurve := ec, peakEquity := pk, maxDrawdown := dd }
      ↔ Route.conservInv cfg st := Iff.rfl

/-- A SELL with position/entry reset preserves the conservation invariant. -/
theorem conserv_sellReset (cfg : Route.BacktestConfig) (mode : Route.SellMode) (ts : ℤ)
    (price : ℚ) (reason : String) (st : Route.BTState) (h : Route.conservInv cfg st) :
    Route.conservInv cfg
      { Route.applySell mode ts price reason st with position := 0, entryPrice := 0 } := by
  obtain ⟨h1, -, h2⟩ := h
  refine ⟨?_, le_refl 0, ?_⟩
  · simp only [Route.applySell, sellPnlSum_append]
    simp only [Option.getD_some]
    linear_combination h1
  · intro t ht
    simp only [Route.applySell] at ht
    rcases List.mem_append.mp ht with h | h
    · exact h2 t h
    · rw [List.mem_singleton.mp h]
      simp

/-- A BUY preserves the conservation invariant (at a positive close and
nonnegative position-size percent, from a flat positive-cash state). -/
theorem conserv_buy (cfg : Route.BacktestConfig) (candle : TA.Candle)
    (signals : List String) (st : Route.BTState) (hclose : 0 < candle.close)
    (hpct : 0 ≤ cfg.positionSizePercent) (hflat : st.position = 0) (hcap : 0 < st.capital)
    (h : Route.conservInv cfg st) :
    Route.conservInv cfg (Route.applyBuy cfg candle signals st) := by
  obtain ⟨h1, -, h2⟩ := h
  rw [hflat] at h1
  refine ⟨?_, ?_, ?_⟩
  · simp only [Route.applyBuy, sellPnlSum_append]
    simp only [Option.getD_none]
    rw [div_mul_cancel₀ _ (ne_of_gt hclose)]
    linear_combination h1
  · simp only [Route.applyBuy]
    positivity
  · intro t ht
    simp only [Route.applyBuy] at ht
    rcases List.mem_append.mp ht with h | h
    · exact h2 t h
    · rw [List.mem_singleton.mp h]
      simp

/-- The sell-signal phase preserves the conservation invariant. -/
theorem conserv_sellPhase (cfg : Route.BacktestConfig) (candle : TA.Candle)
    (rsi hist prevHist : Option ℚ) (st : Route.BTState) (h : Route.conservInv cfg st) :
    Route.conservInv cfg (Route.sellPhase cfg candle rsi hist prevHist st) := by
  rw [Route.sellPhase]
  split
  · exact conserv_sellReset cfg _ _ _ _ st h
  · exact h

/-- The equity/drawdown bookkeeping does not change the conservation
fields. -/
theorem conservInv_bookkeep (cfg : Route.BacktestConfig) (candle : TA.Candle)
    (st : Route.BTState) :
    Route.conservInv cfg (Route.bookkeep candle st) ↔ Route.conservInv cfg st := Iff.rfl

/-- One loop iteration preserves the conservation invariant. -/
theorem conserv_step (cfg : Route.BacktestConfig) (candle : TA.Candle)
    (rsi hist prevHist lower : Option ℚ) (st : Route.BTState) (hclose : 0 < candle.close)
    (hpct : 0 ≤ cfg.positionSizePercent) (h : Route.conservInv cfg st) :
    Route.conservInv cfg (Route.step cfg candle rsi hist prevHist lower st) := by
  rw [Route.step]
  have h' : Route.conservInv cfg (Route.bookkeep candle st) :=
    (conservInv_bookkeep cfg candle st).mpr h
  split
  · exact conserv_sellReset cfg _ _ _ _ _ h'
  · split
    · exact conserv_sellReset cfg _ _ _ _ _ h'
    · split
      · rename_i hcond
        exact conserv_sellPhase cfg _ _ _ _ _
          (conserv_buy cfg candle _ _ hclose hpct hcond.1 hcond.2.1 h')
      · exact conserv_sellPhase cfg _ _ _ _ _ h'

/-- The conservation invariant holds initially. -/
theorem conserv_init (cfg : Route.BacktestConfig) :
    Route.conservInv cfg (Route.initState cfg) := by
  refine ⟨?_, le_refl 0, ?_⟩
  · simp [Route.initState, Route.sellPnlSum]
  · intro t ht
    simp [Route.initState] at ht

/-- The conservation invariant is preserved by folding the loop body over
any in-range index list. -/
theorem conserv_foldl (cfg : Route.BacktestConfig) (candles : List TA.Candle)
    (rsi hist lower : List (Option ℚ)) (hpos : ∀ c ∈ candles, 0 < c.close)
    (hpct : 0 ≤ cfg.positionSizePercent) :
    ∀ is : List ℕ, (∀ i ∈ is, i < candles.length) → ∀ st, Route.conservInv cfg st →
      Route.conservInv cfg
        (is.foldl (fun st i => Route.stepAt cfg candles rsi hist lower i st) st) := by
  intro is
  induction is with
  | nil => intro _ st h; exact h
  | cons i is' ih =>
    intro hin st h
    rw [List.foldl_cons]
    refine ih (fun j hj => hin j (List.mem_cons_of_mem _ hj)) _ ?_
    rw [Route.stepAt]
    have hilt : i < candles.length := hin i (List.mem_cons_self _ _)
    exact conserv_step cfg _ _ _ _ _ st
      (hpos _ (getD_mem_of_lt candles i TA.dummyCandle hilt)) hpct h

/-- After the force close, cash alone equals initial capital plus the
realized pnl of the final trade log. -/
theorem conserv_forceClose (cfg : Route.BacktestConfig) (candles : List TA.Candle)
    (st : Route.BTState) (h : Route.conservInv cfg st) :
    (Route.forceClose candles st).capital =
      cfg.initialCapital + Route.sellPnlSum (Route.forceClose candles st).trades ∧
    ∀ t ∈ (Route.forceClose candles st).trades,
      (t.pnl.isSome ↔ t.type = Route.TradeType.SELL) := by
  obtain ⟨h1, hpos, h2⟩ := h
  rw [Route.forceClose]
  split
  · constructor
    · simp only [Route.applySell, sellPnlSum_append, Option.getD_some]
      linear_combination h1
    · intro t ht
      simp only [Route.applySell] at ht
      rcases List.mem_append.mp ht with h | h
      · exact h2 t h
      · rw [List.mem_singleton.mp h]
        simp
  · rename_i hnp
    have hz : st.position = 0 := le_antisymm (not_lt.mp hnp) hpos
    rw [hz] at h1
    constructor
    · linear_combination h1
    · exact h2

/-- Claim C4, amended: for candle series (length ≥ 50) with positive
closes and configurations with nonnegative `positionSizePercent`, the
capital after the end-of-series force close equals the initial capital
plus the sum of realized pnl over SELL log entries — i.e. `totalReturn`
is exactly that sum — and exactly the SELL entries carry a `pnl`. -/
theorem claim_c4_amended (sqrtQ : ℚ → ℚ) (candles : List TA.Candle)
    (rsiValues : List (Option ℚ)) (macdResult : TA.MACDArrays)
    (bollinger : TA.BollingerArrays) (cfg : Route.BacktestConfig)
    (hlen : 50 ≤ candles.length) (hpos : ∀ c ∈ candles, 0 < c.close)
    (hpct : 0 ≤ cfg.positionSizePercent) :
    (Route.runBacktest sqrtQ candles rsiValues macdResult bollinger cfg).totalReturn =
      Route.sellPnlSum
        (Route.runBacktest sqrtQ candles rsiValues macdResult bollinger cfg).trades ∧
    ∀ t ∈ (Route.runBacktest sqrtQ candles rsiValues macdResult bollinger cfg).trades,
      (t.pnl.isSome ↔ t.type = Route.TradeType.SELL) := by
  have hloop : Route.conservInv cfg
      (Route.runLoop cfg candles rsiValues macdResult.histogram bollinger.lower) := by
    rw [Route.runLoop]
    refine conserv_foldl cfg candles _ _ _ hpos hpct _ ?_ _ (conserv_init cfg)
    intro j hj
    rcases List.mem_range'.mp hj with ⟨k, hk, rfl⟩
    omega
  have hfc := conserv_forceClose cfg candles _ hloop
  constructor
  · simp only [Route.runBacktest]
    linear_combination hfc.1
  · simp only [Route.runBacktest]
    exact hfc.2

/-- Witness for the amended C4 at a concrete input. -/
theorem claim_c4_amended_witness :
    (50 ≤ (List.replicate 50 (⟨0, 1, 1, 1, 1, 0⟩ : TA.Candle)).length ∧
      (∀ c ∈ List.replicate 50 (⟨0, 1, 1, 1, 1, 0⟩ : TA.Candle), 0 < c.close) ∧
      (0 : ℚ) ≤ 10) ∧
    (Route.runBacktest (fun _ => 0) (List.replicate 50 ⟨0, 1, 1, 1, 1, 0⟩) [] ⟨[], [], []⟩
        ⟨[], [], [], []⟩ ⟨"bitcoin", 0, 0, 10000, 30, 70, 5, 20, 10, 3⟩).totalReturn =
      Route.sellPnlSum (Route.runBacktest (fun _ => 0) (List.replicate 50 ⟨0, 1, 1, 1, 1, 0⟩)
        [] ⟨[], [], []⟩ ⟨[], [], [], []⟩ ⟨"bitcoin", 0, 0, 10000, 30, 70, 5, 20, 10, 3⟩).trades := by
  have hc : ∀ c ∈ List.replicate 50 (⟨0, 1, 1, 1, 1, 0⟩ : TA.Candle), 0 < c.close := by
    intro c hc
    rw [List.eq_of_mem_replicate hc]
    norm_num
  exact ⟨⟨by decide, hc, by norm_num⟩,
    (claim_c4_amended (fun _ => 0) _ [] ⟨[], [], []⟩ ⟨[], [], [], []⟩
      ⟨"bitcoin", 0, 0, 10000, 30, 70, 5, 20, 10, 3⟩ (by decide) hc (by norm_num)).1⟩

/-- Counterexample to claim C4: with `positionSizePercent = -10` the BUY
at index 50 opens a negative position, every sell path (including the
force close) requires `position > 0` and is skipped, so the final capital
exceeds the initial by the (never-realized) 1000 while the trade log has
no SELL pnl at all. -/
theorem claim_c4_counterexample :
    (Route.runBacktest (fun _ => 0) cexCandles51 cexRsi51 cexMacd51 cexBoll51
      cexCfgNeg).totalReturn = 1000 ∧
    Route.sellPnlSum (Route.runBacktest (fun _ => 0) cexCandles51 cexRsi51 cexMacd51 cexBoll51
      cexCfgNeg).trades = 0 ∧
    (1000 : ℚ) ≠ 0 := by
  refine ⟨?_, ?_, by norm_num⟩ <;>
    norm_num [Route.runBacktest, Route.runLoop, Route.forceClose, Route.stepAt, Route.step,
      Route.bookkeep, Route.applySell, Route.applyBuy, Route.sellPhase, Route.buySignals,
      Route.sellSignals, Route.initState, Route.sellPnlSum, cexCandles51, cexRsi51, cexMacd51,
      cexBoll51, cexCfgNeg, List.range', List.getD_eq_getElem?_getD, List.getElem?_replicate,
      List.get?_eq_getElem?, List.length_replicate]

/-- `sellCount` over an appended trade. -/
theorem sellCount_append (tr : List Route.BacktestTrade) (t : Route.BacktestTrade) :
    Route.sellCount (tr ++ [t]) =
      Route.sellCount tr + (if t.type = Route.TradeType.SELL then 1 else 0) := by
  rw [Route.sellCount, Route.sellCount, List.filter_append, List.length_append]
  congr 1
  split <;> rename_i h <;> simp [h]

/-- `buyCount` over an appended trade. -/
theorem buyCount_append (tr : List Route.BacktestTrade) (t : Route.BacktestTrade) :
    Route.buyCount (tr ++ [t]) =
      Route.buyCount tr + (if t.type = Route.TradeType.BUY then 1 else 0) := by
  rw [Route.buyCount, Route.buyCount, List.filter_append, List.length_append]
  congr 1
  split <;> rename_i h <;> simp [h]

/-- Every trade is a BUY or a SELL, so the log length is the sum of the
two counts. -/
theorem length_eq_buy_add_sell (tr : List Route.BacktestTrade) :
    tr.length = Route.buyCount tr + Route.sellCount tr := by
  induction tr with
  | nil => simp [Route.buyCount, Route.sellCount]
  | cons t ts ih =>
    simp only [Route.buyCount, Route.sellCount, List.filter_cons, List.length_cons] at *
    cases h : t.type <;> simp [h] <;> omega

/-- The sell-signal phase preserves the counting invariant. -/
theorem count_sellPhase (cfg : Route.BacktestConfig) (candle : TA.Candle)
    (rsi hist prevHist : Option ℚ) (st : Route.BTState) (h : Route.countInv cfg st) :
    Route.countInv cfg (Route.sellPhase cfg candle rsi hist prevHist st) := by
  rw [Route.sellPhase]
  split
  · rename_i hg
    have h1 := h.1
    have h2 := h.2.1
    rw [if_neg (ne_of_gt hg.1)] at h2
    refine ⟨?_, ?_, fun hne => absurd rfl hne⟩
    · simp only [Route.applySell, sellCount_append]
      split_ifs <;> simp <;> omega
    · simp [Route.applySell, buyCount_append, sellCount_append]
      omega
  · exact h

/-- One loop iteration preserves the counting invariant. -/
theorem count_step (cfg : Route.BacktestConfig) (candle : TA.Candle)
    (rsi hist prevHist lower : Option ℚ) (st : Route.BTState) (hclose : 0 < candle.close)
    (hslp : 0 < cfg.stopLossPercent) (htpp : 0 < cfg.takeProfitPercent)
    (hpct : 0 < cfg.positionSizePercent) (h : Route.countInv cfg st) :
    Route.countInv cfg (Route.step cfg candle rsi hist prevHist lower st) := by
  rw [Route.step]
  have h' : Route.countInv cfg (Route.bookkeep candle st) := h
  split
  · rename_i hguard
    obtain ⟨hpos, hentry, hsl, -⟩ := h'.2.2 (ne_of_gt hguard.1)
    have hprod : 0 < (Route.bookkeep candle st).entryPrice * cfg.stopLossPercent
        * (Route.bookkeep candle st).position := mul_pos (mul_pos hentry hslp) hpos
    have hpnl : ((Route.bookkeep candle st).stopLoss - (Route.bookkeep candle st).entryPrice)
        * (Route.bookkeep candle st).position < 0 := by
      rw [hsl]
      nlinarith [hprod]
    have h1 := h'.1
    have h2 := h'.2.1
    rw [if_neg (ne_of_gt hguard.1)] at h2
    refine ⟨?_, ?_, fun hne => absurd rfl hne⟩
    · simp [Route.applySell, sellCount_append, hpnl]
      omega
    · simp [Route.applySell, buyCount_append, sellCount_append]
      omega
  · split
    · rename_i hguard
      obtain ⟨hpos, hentry, -, htp⟩ := h'.2.2 (ne_of_gt hguard.1)
      have hprod : 0 < (Route.bookkeep candle st).entryPrice * cfg.takeProfitPercent
          * (Route.bookkeep candle st).position := mul_pos (mul_pos hentry htpp) hpos
      have hpnl : 0 < ((Route.bookkeep candle st).takeProfit
          - (Route.bookkeep candle st).entryPrice) * (Route.bookkeep candle st).position := by
        rw [htp]
        nlinarith [hprod]
      have h1 := h'.1
      have h2 := h'.2.1
      rw [if_neg (ne_of_gt hguard.1)] at h2
      refine ⟨?_, ?_, fun hne => absurd rfl hne⟩
      · simp [Route.applySell, sellCount_append, hpnl]
        omega
      · simp [Route.applySell, buyCount_append, sellCount_append]
        omega
    · split
      · rename_i hbuy
        have hpq : 0 < (Route.bookkeep candle st).capital * cfg.positionSizePercent / 100
            / candle.close :=
          div_pos (div_pos (mul_pos hbuy.2.1 hpct) (by norm_num)) hclose
        have h1 := h'.1
        have h2 := h'.2.1
        rw [if_pos hbuy.1] at h2
        refine count_sellPhase cfg candle rsi hist prevHist _ ⟨?_, ?_, ?_⟩
        · simp [Route.applyBuy, sellCount_append]
          omega
        · have hifeq : (if (Route.applyBuy cfg candle
              (Route.buySignals cfg candle rsi hist prevHist lower)
              (Route.bookkeep candle st)).position = 0 then (0 : ℕ) else 1) = 1 := by
            rw [if_neg]
            exact ne_of_gt hpq
          rw [hifeq]
          simp [Route.applyBuy, buyCount_append, sellCount_append]
          omega
        · intro hne
          exact ⟨hpq, hclose, rfl, rfl⟩
      · exact count_sellPhase cfg candle rsi hist prevHist _ h'

/-- The counting invariant holds initially. -/
theorem count_init (cfg : Route.BacktestConfig) : Route.countInv cfg (Route.initState cfg) := by
  refine ⟨?_, ?_, fun hne => absurd rfl hne⟩ <;>
    simp [Route.initState, Route.sellCount, Route.buyCount]

/-- The counting invariant is preserved by folding the loop body over any
in-range index list. -/
theorem count_foldl (cfg : Route.BacktestConfig) (candles : List TA.Candle)
    (rsi hist lower : List (Option ℚ)) (hpos : ∀ c ∈ candles, 0 < c.close)
    (hslp : 0 < cfg.stopLossPercent) (htpp : 0 < cfg.takeProfitPercent)
    (hpct : 0 < cfg.positionSizePercent) :
    ∀ is : List ℕ, (∀ i ∈ is, i < candles.length) → ∀ st, Route.countInv cfg st →
      Route.countInv cfg
        (is.foldl (fun st i => Route.stepAt cfg candles rsi hist lower i st) st) := by
  intro is
  induction is with
  | nil => intro _ st h; exact h
  | cons i is' ih =>
    intro hin st h
    rw [List.foldl_cons]
    refine ih (fun j hj => hin j (List.mem_cons_of_mem _ hj)) _ ?_
    rw [Route.stepAt]
    exact count_step cfg _ _ _ _ _ st
      (hpos _ (getD_mem_of_lt candles i TA.dummyCandle (hin i (List.mem_cons_self _ _))))
      hslp htpp hpct h

/-- After the force close, the counters count exactly the SELL entries,
which pair up with the BUY entries. -/
theorem count_forceClose (cfg : Route.BacktestConfig) (candles : List TA.Candle)
    (st : Route.BTState) (h : Route.countInv cfg st) :
    (Route.forceClose candles st).winningTrades + (Route.forceClose candles st).losingTrades =
      Route.sellCount (Route.forceClose candles st).trades ∧
    Route.buyCount (Route.forceClose candles st).trades =
      Route.sellCount (Route.forceClose candles st).trades := by
  rw [Route.forceClose]
  split
  · rename_i hp
    have h1 := h.1
    have h2 := h.2.1
    rw [if_neg (ne_of_gt hp)] at h2
    constructor
    · simp only [Route.applySell, sellCount_append]
      split_ifs <;> simp <;> omega
    · simp [Route.applySell, buyCount_append, sellCount_append]
      omega
  · rename_i hnp
    have hz : st.position = 0 := by
      by_contra hne
      exact hnp ((h.2.2 hne).1)
    have h2 := h.2.1
    rw [if_pos hz] at h2
    exact ⟨h.1, by omega⟩

/-- Each loop iteration appends exactly one equity point. -/
theorem step_equity (cfg : Route.BacktestConfig) (candle : TA.Candle)
    (rsi hist prevHist lower : Option ℚ) (st : Route.BTState) :
    (Route.step cfg candle rsi hist prevHist lower st).equityCurve =
      st.equityCurve ++ [⟨candle.timestamp, st.capital + st.position * candle.close⟩] := by
  rw [Route.step, Route.sellPhase]
  split
  · rfl
  · split
    · rfl
    · split
      · split <;> rfl
      · split <;> rfl

/-- The loop appends one equity point per index. -/
theorem foldl_equity_len (cfg : Route.BacktestConfig) (candles : List TA.Candle)
    (rsi hist lower : List (Option ℚ)) :
    ∀ (is : List ℕ) (st : Route.BTState),
      (is.foldl (fun st i => Route.stepAt cfg candles rsi hist lower i st) st).equityCurve.length
        = st.equityCurve.length + is.length := by
  intro is
  induction is with
  | nil => intro st; simp
  | cons i is' ih =>
    intro st
    rw [List.foldl_cons, ih, Route.stepAt, step_equity]
    simp
    omega

/-- The force close does not touch the equity curve. -/
theorem forceClose_equity (candles : List TA.Candle) (st : Route.BTState) :
    (Route.forceClose candles st).equityCurve = st.equityCurve := by
  rw [Route.forceClose]
  split <;> rfl

/-- Claim C5, amended: the equity curve has one sample per simulated
candle (`candles.length - 50`), while `totalTrades` equals
`winningTrades + losingTrades`, which counts the closed SELL entries of
the trade log — not the full log length: BUY entries are uncounted, and
the log is exactly twice `totalTrades` (each close pairs with its BUY).
Holds for positive closes and positive stop-loss/take-profit/position
size percents. -/
theorem claim_c5_amended (sqrtQ : ℚ → ℚ) (candles : List TA.Candle)
    (rsiValues : List (Option ℚ)) (macdResult : TA.MACDArrays)
    (bollinger : TA.BollingerArrays) (cfg : Route.BacktestConfig)
    (hlen : 50 ≤ candles.length) (hpos : ∀ c ∈ candles, 0 < c.close)
    (hslp : 0 < cfg.stopLossPercent) (htpp : 0 < cfg.takeProfitPercent)
    (hpct : 0 < cfg.positionSizePercent) :
    (Route.runBacktest sqrtQ candles rsiValues macdResult bollinger cfg).equityCurve.length
        = candles.length - 50 ∧
    (Route.runBacktest sqrtQ candles rsiValues macdResult bollinger cfg).totalTrades =
      Route.sellCount
        (Route.runBacktest sqrtQ candles rsiValues macdResult bollinger cfg).trades ∧
    (Route.runBacktest sqrtQ candles rsiValues macdResult bollinger cfg).trades.length =
      2 * (Route.runBacktest sqrtQ candles rsiValues macdResult bollinger cfg).totalTrades := by
  have hloop : Route.countInv cfg
      (Route.runLoop cfg candles rsiValues macdResult.histogram bollinger.lower) := by
    rw [Route.runLoop]
    refine count_foldl cfg candles _ _ _ hpos hslp htpp hpct _ ?_ _ (count_init cfg)
    intro j hj
    rcases List.mem_range'.mp hj with ⟨k, hk, rfl⟩
    omega
  have hfc := count_forceClose cfg candles _ hloop
  refine ⟨?_, ?_, ?_⟩
  · simp only [Route.runBacktest, forceClose_equity, Route.runLoop]
    rw [foldl_equity_len]
    simp [Route.initState]
  · simp only [Route.runBacktest]
    exact hfc.1
  · simp only [Route.runBacktest]
    rw [length_eq_buy_add_sell, hfc.2, ← hfc.1]
    omega

/-- Counterexample to claim C5: on 51 flat candles with an oversold RSI
array (default configuration), the run logs one BUY at index 50 plus the
force-close SELL, so the trade log has two entries, while `totalTrades =
winningTrades + losingTrades = 1` — `totalTrades` is not `trades.length`. -/
theorem claim_c5_counterexample :
    (Route.runBacktest (fun _ => 0) cexCandles51 cexRsi51 cexMacd51 cexBoll51
      cexCfg).totalTrades = 1 ∧
    (Route.runBacktest (fun _ => 0) cexCandles51 cexRsi51 cexMacd51 cexBoll51
      cexCfg).trades.length = 2 ∧
    (1 : ℕ) ≠ 2 := by
  refine ⟨?_, ?_, by decide⟩ <;>
    norm_num [Route.runBacktest, Route.runLoop, Route.forceClose, Route.stepAt, Route.step,
      Route.bookkeep, Route.applySell, Route.applyBuy, Route.sellPhase, Route.buySignals,
      Route.sellSignals, Route.initState, cexCandles51, cexRsi51, cexMacd51,
      cexBoll51, cexCfg, List.range', List.getD_eq_getElem?_getD, List.getElem?_replicate,
      List.get?_eq_getElem?, List.length_replicate]

/-- Witness for the amended C5 at a concrete input. -/
theorem claim_c5_amended_witness :
    (50 ≤ cexCandles51.length ∧ (∀ c ∈ cexCandles51, 0 < c.close) ∧
      (0 : ℚ) < 5 ∧ (0 : ℚ) < 20 ∧ (0 : ℚ) < 10) ∧
    (Route.runBacktest (fun _ => 0) cexCandles51 cexRsi51 cexMacd51 cexBoll51
      cexCfg).equityCurve.length = cexCandles51.length - 50 := by
  have hc : ∀ c ∈ cexCandles51, 0 < c.close := by
    intro c hc
    rw [List.eq_of_mem_replicate hc]
    norm_num
  refine ⟨⟨by decide, hc, by norm_num, by norm_num, by norm_num⟩, ?_⟩
  exact (claim_c5_amended (fun _ => 0) cexCandles51 cexRsi51 cexMacd51 cexBoll51 cexCfg
    (by decide) hc (by norm_num [cexCfg]) (by norm_num [cexCfg]) (by norm_num [cexCfg])).1

/-- `gains` of a prefix is a prefix of `gains`. -/
theorem gains_take (l : List ℚ) (n : ℕ) : TA.gains (l.take n) = (TA.gains l).take (n - 1) := by
  simpa using gains_window l 0 n

/-- `losses` of a prefix is a prefix of `losses`. -/
theorem losses_take (l : List ℚ) (n : ℕ) :
    TA.losses (l.take n) = (TA.losses l).take (n - 1) := by
  simpa using losses_window l 0 n

/-- SMA entries do not look ahead: truncating the series after index `j`
leaves entry `j` unchanged. -/
theorem sma_get?_stable (data : List ℚ) (p m : ℕ) (hm : m ≤ data.length) :
    ∀ j < m, (TA.calculateSMA (data.take m) p).get? j = (TA.calculateSMA data p).get? j := by
  intro j hj
  have hjlen : j < data.length := lt_of_lt_of_le hj hm
  rw [TA.calculateSMA, TA.calculateSMA, rangeMap_get?, rangeMap_get?,
    if_pos (by rw [List.length_take]; omega), if_pos hjlen]
  by_cases hp : j < p - 1
  · rw [if_pos hp, if_pos hp]
  · rw [if_neg hp, if_neg hp]
    have hslice : ((data.take m).drop (j + 1 - p)).take p = (data.drop (j + 1 - p)).take p := by
      rw [List.drop_take, List.take_take]
      congr 1
      omega
    rw [hslice]

/-- Standard-deviation entries do not look ahead. -/
theorem stdDev_get?_stable (sqrtQ : ℚ → ℚ) (data : List ℚ) (p m : ℕ) (hm : m ≤ data.length) :
    ∀ j < m, (TA.calculateStdDev sqrtQ (data.take m) p).get? j
      = (TA.calculateStdDev sqrtQ data p).get? j := by
  intro j hj
  have hjlen : j < data.length := lt_of_lt_of_le hj hm
  rw [TA.calculateStdDev, TA.calculateStdDev, rangeMap_get?, rangeMap_get?,
    if_pos (by rw [List.length_take]; omega), if_pos hjlen]
  by_cases hp : j < p - 1
  · rw [if_pos hp, if_pos hp]
  · rw [if_neg hp, if_neg hp]
    have hslice : ((data.take m).drop (j + 1 - p)).take p = (data.drop (j + 1 - p)).take p := by
      rw [List.drop_take, List.take_take]
      congr 1
      omega
    rw [hslice]

/-- The running EMA value does not look ahead. -/
theorem emaVal_stable (data : List ℚ) (p m : ℕ) (hm : m ≤ data.length) :
    ∀ j, p - 1 ≤ j → j < m → TA.emaVal (data.take m) p j = TA.emaVal data p j := by
  intro j
  induction j with
  | zero =>
    intro hpj hjm
    rw [TA.emaVal, TA.emaVal, TA.emaSeed, TA.emaSeed, List.take_take,
      min_eq_left (by omega : p ≤ m)]
  | succ j ih =>
    intro hpj hjm
    rw [TA.emaVal, TA.emaVal]
    by_cases hseed : j + 2 ≤ p
    · rw [if_pos hseed, if_pos hseed, TA.emaSeed, TA.emaSeed, List.take_take,
        min_eq_left (by omega : p ≤ m)]
    · rw [if_neg hseed, if_neg hseed, ih (by omega) (by omega),
        List.getD_eq_getElem?_getD, List.getD_eq_getElem?_getD,
        List.getElem?_take_of_lt (by omega : j + 1 < m)]

/-- EMA entries do not look ahead. -/
theorem ema_get?_stable (data : List ℚ) (p m : ℕ) (hm : m ≤ data.length) :
    ∀ j < m, (TA.calculateEMA (data.take m) p).get? j = (TA.calculateEMA data p).get? j := by
  intro j hj
  have hjlen : j < data.length := lt_of_lt_of_le hj hm
  rw [TA.calculateEMA, TA.calculateEMA, rangeMap_get?, rangeMap_get?,
    if_pos (by rw [List.length_take]; omega), if_pos hjlen]
  by_cases hp : j < p - 1
  · rw [if_pos hp, if_pos hp]
  · rw [if_neg hp, if_neg hp, emaVal_stable data p m hm j (by omega) hj]

/-- RSI entries do not look ahead. -/
theorem rsi_get?_stable (closes : List ℚ) (p m : ℕ) (hm : m ≤ closes.length) :
    ∀ j < m, (TA.calculateRSI (closes.take m) p).get? j
      = (TA.calculateRSI closes p).get? j := by
  intro j hj
  have hjlen : j < closes.length := lt_of_lt_of_le hj hm
  have havgG : p ≤ j → TA.rsiAvgGain (closes.take m) p j = TA.rsiAvgGain closes p j := by
    intro hpj
    rw [TA.rsiAvgGain, TA.rsiAvgGain, gains_take]
    by_cases hjp : j = p
    · rw [if_pos hjp, if_pos hjp, List.take_take, min_eq_left (by omega : p ≤ m - 1)]
    · rw [if_neg hjp, if_neg hjp, List.drop_take, List.take_take,
        min_eq_left (by omega : p ≤ m - 1 - (j - p)),
        List.getD_eq_getElem?_getD, List.getD_eq_getElem?_getD,
        List.getElem?_take_of_lt (by omega : j - 1 < m - 1)]
  have havgL : p ≤ j → TA.rsiAvgLoss (closes.take m) p j = TA.rsiAvgLoss closes p j := by
    intro hpj
    rw [TA.rsiAvgLoss, TA.rsiAvgLoss, losses_take]
    by_cases hjp : j = p
    · rw [if_pos hjp, if_pos hjp, List.take_take, min_eq_left (by omega : p ≤ m - 1)]
    · rw [if_neg hjp, if_neg hjp, List.drop_take, List.take_take,
        min_eq_left (by omega : p ≤ m - 1 - (j - p)),
        List.getD_eq_getElem?_getD, List.getD_eq_getElem?_getD,
        List.getElem?_take_of_lt (by omega : j - 1 < m - 1)]
  rw [TA.calculateRSI, TA.calculateRSI, rangeMap_get?, rangeMap_get?,
    if_pos (by rw [List.length_take]; omega), if_pos hjlen, TA.rsiEntry, TA.rsiEntry]
  by_cases hjp : j < p
  · rw [if_pos hjp, if_pos hjp]
  · rw [if_neg hjp, if_neg hjp, havgG (by omega), havgL (by omega)]

/-- The MACD line of a prefix is a prefix of the MACD line. -/
theorem macd_take (closes : List ℚ) (m : ℕ) (hm : m ≤ closes.length) :
    (TA.calculateMACD (closes.take m)).macd = (TA.calculateMACD closes).macd.take m := by
  apply List.ext_getElem?
  intro j
  by_cases hj : j < m
  · rw [List.getElem?_take_of_lt hj]
    show (List.zipWith TA.optSub (TA.calculateEMA (closes.take m) 12)
        (TA.calculateEMA (closes.take m) 26))[j]? = _
    rw [List.getElem?_zipWith]
    have h12 : (TA.calculateEMA (closes.take m) 12)[j]? = (TA.calculateEMA closes 12)[j]? := by
      rw [← List.get?_eq_getElem?, ← List.get?_eq_getElem?]
      exact ema_get?_stable closes 12 m hm j hj
    have h26 : (TA.calculateEMA (closes.take m) 26)[j]? = (TA.calculateEMA closes 26)[j]? := by
      rw [← List.get?_eq_getElem?, ← List.get?_eq_getElem?]
      exact ema_get?_stable closes 26 m hm j hj
    rw [h12, h26]
    show _ = (List.zipWith TA.optSub (TA.calculateEMA closes 12)
        (TA.calculateEMA closes 26))[j]?
    rw [List.getElem?_zipWith]
  · have h1 : (TA.calculateMACD (closes.take m)).macd[j]? = none := by
      rw [List.getElem?_eq_none_iff, macd_length, List.length_take]
      omega
    have h2 : ((TA.calculateMACD closes).macd.take m)[j]? = none := by
      rw [List.getElem?_eq_none_iff, List.length_take]
      omega
    rw [h1, h2]

/-- MACD histogram entries do not look ahead. -/
theorem hist_get?_stable (closes : List ℚ) (m : ℕ) (hm : m ≤ closes.length) :
    ∀ j < m, (TA.calculateMACD (closes.take m)).histogram.get? j
      = (TA.calculateMACD closes).histogram.get? j := by
  intro j hj
  have hmacd : ∀ k < m, (TA.calculateMACD (closes.take m)).macd[k]?
      = (TA.calculateMACD closes).macd[k]? := by
    intro k hk
    rw [macd_take closes m hm, List.getElem?_take_of_lt hk]
  have hsignal : (TA.calculateMACD (closes.take m)).signal.get? j
      = (TA.calculateMACD closes).signal.get? j := by
    show (TA.calculateEMA ((TA.calculateMACD (closes.take m)).macd.map
        (fun v => v.getD 0)) 9).get? j = _
    rw [macd_take closes m hm, List.map_take]
    exact ema_get?_stable ((TA.calculateMACD closes).macd.map (fun v => v.getD 0)) 9 m
      (by rw [List.length_map, macd_length]; exact hm) j hj
  show (List.zipWith TA.optSub (TA.calculateMACD (closes.take m)).macd
      (TA.calculateMACD (closes.take m)).signal).get? j = _
  rw [List.get?_eq_getElem?, List.getElem?_zipWith, hmacd j hj,
    show (TA.calculateMACD (closes.take m)).signal[j]?
      = (TA.calculateMACD closes).signal[j]? from by
        rw [← List.get?_eq_getElem?, ← List.get?_eq_getElem?]; exact hsignal]
  show _ = (List.zipWith TA.optSub (TA.calculateMACD closes).macd
      (TA.calculateMACD closes).signal).get? j
  rw [List.get?_eq_getElem?, List.getElem?_zipWith]

/-- Bollinger lower-band entries do not look ahead. -/
theorem boll_lower_get?_stable (sqrtQ : ℚ → ℚ) (closes : List ℚ) (p : ℕ) (mult : ℚ) (m : ℕ)
    (hm : m ≤ closes.length) :
    ∀ j < m, (TA.calculateBollingerBands sqrtQ (closes.take m) p mult).lower.get? j
      = (TA.calculateBollingerBands sqrtQ closes p mult).lower.get? j := by
  intro j hj
  have hsma : (TA.calculateSMA (closes.take m) p)[j]? = (TA.calculateSMA closes p)[j]? := by
    rw [← List.get?_eq_getElem?, ← List.get?_eq_getElem?]
    exact sma_get?_stable closes p m hm j hj
  have hsd : (TA.calculateStdDev sqrtQ (closes.take m) p)[j]?
      = (TA.calculateStdDev sqrtQ closes p)[j]? := by
    rw [← List.get?_eq_getElem?, ← List.get?_eq_getElem?]
    exact stdDev_get?_stable sqrtQ closes p m hm j hj
  show (TA.bbCombine _ (TA.calculateSMA (closes.take m) p)
      (TA.calculateStdDev sqrtQ (closes.take m) p)).get? j = _
  rw [TA.bbCombine, List.get?_eq_getElem?, List.getElem?_zipWith, hsma, hsd]
  show _ = (TA.bbCombine _ (TA.calculateSMA closes p)
      (TA.calculateStdDev sqrtQ closes p)).get? j
  rw [TA.bbCombine, List.get?_eq_getElem?, List.getElem?_zipWith]

/-- The decision at index `i` only reads the candle and the indicator
entries at indices up to `i`. -/
theorem decisionAt_congr (cfg : Route.BacktestConfig)
    (candles candles' : List TA.Candle) (rsi rsi' hist hist' lower lower' : List (Option ℚ))
    (i : ℕ)
    (hc : ∀ j ≤ i, candles'.getD j TA.dummyCandle = candles.getD j TA.dummyCandle)
    (hr : ∀ j ≤ i, rsi'.get? j = rsi.get? j)
    (hh : ∀ j ≤ i, hist'.get? j = hist.get? j)
    (hl : ∀ j ≤ i, lower'.get? j = lower.get? j) :
    Route.decisionAt cfg candles' rsi' hist' lower' i =
      Route.decisionAt cfg candles rsi hist lower i := by
  have hstep : ∀ j ≤ i, ∀ st, Route.stepAt cfg candles' rsi' hist' lower' j st
      = Route.stepAt cfg candles rsi hist lower j st := by
    intro j hj st
    rw [Route.stepAt, Route.stepAt, hc j hj, hr j hj, hh j hj, hh (j - 1) (by omega), hl j hj]
  have hstate : Route.stateBefore cfg candles' rsi' hist' lower' i
      = Route.stateBefore cfg candles rsi hist lower i := by
    rw [Route.stateBefore, Route.stateBefore]
    have hgen : ∀ js : List ℕ, (∀ j ∈ js, j ≤ i) → ∀ st,
        js.foldl (fun st j => Route.stepAt cfg candles' rsi' hist' lower' j st) st
          = js.foldl (fun st j => Route.stepAt cfg candles rsi hist lower j st) st := by
      intro js
      induction js with
      | nil => intro _ st; rfl
      | cons j js' ih =>
        intro hjs st
        rw [List.foldl_cons, List.foldl_cons, hstep j (hjs j (List.mem_cons_self _ _)) st]
        exact ih (fun k hk => hjs k (List.mem_cons_of_mem _ hk)) _
    refine hgen _ ?_ _
    intro j hj
    rcases List.mem_range'.mp hj with ⟨k, hk, rfl⟩
    omega
  rw [Route.decisionAt, Route.decisionAt, hstate, hstep i (le_refl i)]

/-- Claim C7: the backtest decision at index `i` — whether trades happen
during iteration `i`, and their type, price and quantity — is unchanged
when the candle series is truncated to the first `i + 1` candles: no
decision depends on later candles. -/
theorem claim_c7 (sqrtQ : ℚ → ℚ) (candles : List TA.Candle) (cfg : Route.BacktestConfig)
    (i : ℕ) (h50 : 50 ≤ i) (hi : i < candles.length) :
    Route.pipelineDecisionAt sqrtQ (candles.take (i + 1)) cfg i =
      Route.pipelineDecisionAt sqrtQ candles cfg i := by
  have hm : i + 1 ≤ (candles.map TA.Candle.close).length := by
    rw [List.length_map]
    omega
  have hmaptake : (candles.take (i + 1)).map TA.Candle.close
      = (candles.map TA.Candle.close).take (i + 1) := by
    rw [List.map_take]
  rw [Route.pipelineDecisionAt, Route.pipelineDecisionAt]
  apply decisionAt_congr
  · intro j hj
    rw [List.getD_eq_getElem?_getD, List.getD_eq_getElem?_getD,
      List.getElem?_take_of_lt (by omega : j < i + 1)]
  · intro j hj
    rw [hmaptake]
    exact rsi_get?_stable (candles.map TA.Candle.close) 14 (i + 1) hm j (by omega)
  · intro j hj
    rw [hmaptake]
    exact hist_get?_stable (candles.map TA.Candle.close) (i + 1) hm j (by omega)
  · intro j hj
    rw [hmaptake]
    exact boll_lower_get?_stable sqrtQ (candles.map TA.Candle.close) 20 2 (i + 1) hm j
      (by omega)

/-- Witness for C7 at a concrete series and index. -/
theorem claim_c7_witness :
    (50 ≤ 50 ∧ 50 < cexCandles51.length) ∧
    Route.pipelineDecisionAt (fun _ => 0) (cexCandles51.take 51) cexCfg 50 =
      Route.pipelineDecisionAt (fun _ => 0) cexCandles51 cexCfg 50 :=
  ⟨⟨by decide, by decide⟩,
    claim_c7 (fun _ => 0) cexCandles51 cexCfg 50 (by decide) (by decide)⟩

/-- The drawdown tracking touches neither the trade log nor the cash nor
the position. -/
theorem drawdownUpdate_fields (p : ℚ) (st : Store.SBState) :
    (Store.drawdownUpdate p st).trades = st.trades ∧
    (Store.drawdownUpdate p st).capital = st.capital ∧
    (Store.drawdownUpdate p st).position = st.position :=
  ⟨rfl, rfl, rfl⟩

/-- JS truthiness of the histogram test matches strict positivity. -/
theorem histTruthyPos_iff (o : Option ℚ) :
    Store.histTruthyPos o ↔ ∃ h, o = some h ∧ 0 < h := by
  cases o with
  | none => simp [Store.histTruthyPos]
  | some h =>
    simp only [Store.histTruthyPos, Option.some.injEq]
    constructor
    · rintro ⟨-, hpos⟩
      exact ⟨h, rfl, hpos⟩
    · rintro ⟨h', he, hpos⟩
      subst he
      exact ⟨ne_of_gt hpos, hpos⟩

/-- Claim C6: in the store module's `runBacktest` loop, from the flat
state (`position == 0`) a BUY is executed at candle `i` exactly when the
single-value RSI over the closes before `i` is strictly below the
oversold threshold and the MACD histogram is strictly positive; on entry
the whole available capital is converted into the position at the last
close before `i` (capital becomes 0, quantity = capital / entry price). -/
theorem claim_c6 (rsiOversold rsiOverbought : ℚ) (data : List Store.OHLCVData) (i : ℕ)
    (st : Store.SBState) (hflat : st.position = 0) :
    ((∃ t : Store.StoreTrade,
        (Store.step rsiOversold rsiOverbought data i st).trades = st.trades ++ [t] ∧
        t.type = Route.TradeType.BUY) ↔
      ((Store.calculateRSI ((data.take i).map Store.OHLCVData.close) 14).value < rsiOversold ∧
        ∃ h, (Store.calculateMACD ((data.take i).map Store.OHLCVData.close) 12 26 9).histogram
          = some h ∧ 0 < h)) ∧
    (((Store.calculateRSI ((data.take i).map Store.OHLCVData.close) 14).value < rsiOversold ∧
        ∃ h, (Store.calculateMACD ((data.take i).map Store.OHLCVData.close) 12 26 9).histogram
          = some h ∧ 0 < h) →
      (Store.step rsiOversold rsiOverbought data i st).capital = 0 ∧
      (Store.step rsiOversold rsiOverbought data i st).position =
        st.capital / (((data.take i).map Store.OHLCVData.close).getD
          (((data.take i).map Store.OHLCVData.close).length - 1) 0) ∧
      ∃ t : Store.StoreTrade,
        (Store.step rsiOversold rsiOverbought data i st).trades = st.trades ++ [t] ∧
        t.type = Route.TradeType.BUY ∧
        t.price = ((data.take i).map Store.OHLCVData.close).getD
          (((data.take i).map Store.OHLCVData.close).length - 1) 0 ∧
        t.quantity = st.capital / (((data.take i).map Store.OHLCVData.close).getD
          (((data.take i).map Store.OHLCVData.close).length - 1) 0)) := by
  by_cases hc : (Store.calculateRSI ((data.take i).map Store.OHLCVData.close) 14).value
      < rsiOversold ∧
      Store.histTruthyPos
        (Store.calculateMACD ((data.take i).map Store.OHLCVData.close) 12 26 9).histogram
  · have hstep : Store.step rsiOversold rsiOverbought data i st =
        Store.drawdownUpdate (((data.take i).map Store.OHLCVData.close).getD
          (((data.take i).map Store.OHLCVData.close).length - 1) 0)
          { st with
            position := st.capital / (((data.take i).map Store.OHLCVData.close).getD
              (((data.take i).map Store.OHLCVData.close).length - 1) 0)
            capital := 0
            trades := st.trades ++ [⟨Route.TradeType.BUY,
              ((data.take i).map Store.OHLCVData.close).getD
                (((data.take i).map Store.OHLCVData.close).length - 1) 0,
              (data.getD i ⟨0, 0, 0, 0, 0, 0⟩).timestamp,
              st.capital / (((data.take i).map Store.OHLCVData.close).getD
                (((data.take i).map Store.OHLCVData.close).length - 1) 0),
              "RSI: " ++ Route.jsToFixed 1
                ((Store.calculateRSI ((data.take i).map Store.OHLCVData.close) 14).value)
                ++ ", MACD crossover"⟩] } := by
      rw [Store.step, if_pos ⟨hflat, hc.1, hc.2⟩]
    constructor
    · rw [hstep]
      refine iff_of_true ⟨_, (drawdownUpdate_fields _ _).1, rfl⟩
        ⟨hc.1, (histTruthyPos_iff _).mp hc.2⟩
    · intro _
      rw [hstep]
      exact ⟨(drawdownUpdate_fields _ _).2.1, (drawdownUpdate_fields _ _).2.2,
        _, (drawdownUpdate_fields _ _).1, rfl, rfl, rfl⟩
  · have hstep : Store.step rsiOversold rsiOverbought data i st =
        Store.drawdownUpdate (((data.take i).map Store.OHLCVData.close).getD
          (((data.take i).map Store.OHLCVData.close).length - 1) 0) st := by
      rw [Store.step, if_neg (fun hcond => hc ⟨hcond.2.1, hcond.2.2⟩),
        if_neg (fun hcond => by rw [hflat] at hcond; exact lt_irrefl 0 hcond.1)]
    constructor
    · rw [hstep]
      refine iff_of_false ?_ ?_
      · rintro ⟨t, ht, -⟩
        rw [(drawdownUpdate_fields _ _).1] at ht
        have := congrArg List.length ht
        simp at this
      · rintro ⟨h1, h2⟩
        exact hc ⟨h1, (histTruthyPos_iff _).mpr h2⟩
    · rintro ⟨h1, h2⟩
      exact absurd ⟨h1, (histTruthyPos_iff _).mpr h2⟩ hc

/-- Witness for C6 at a concrete state and data. -/
theorem claim_c6_witness :
    ((⟨10000, 0, [], 10000, 0, []⟩ : Store.SBState).position = 0) ∧
    ((∃ t : Store.StoreTrade,
        (Store.step 30 70 (List.replicate 51 ⟨0, 1, 1, 1, 1, 1⟩) 50
          ⟨10000, 0, [], 10000, 0, []⟩).trades = [t] ∧
        t.type = Route.TradeType.BUY) ↔
      ((Store.calculateRSI (((List.replicate 51
          (⟨0, 1, 1, 1, 1, 1⟩ : Store.OHLCVData)).take 50).map Store.OHLCVData.close)
            14).value < 30 ∧
        ∃ h, (Store.calculateMACD (((List.replicate 51
          (⟨0, 1, 1, 1, 1, 1⟩ : Store.OHLCVData)).take 50).map Store.OHLCVData.close)
            12 26 9).histogram = some h ∧ 0 < h)) :=
  ⟨rfl, (claim_c6 30 70 (List.replicate 51 ⟨0, 1, 1, 1, 1, 1⟩) 50
    ⟨10000, 0, [], 10000, 0, []⟩ rfl).1⟩

/-- C10: for every non-empty candle series, `performTechnicalAnalysis`
returns `support2 = null` and `resistance2 = null`: those two fields are
read from the module-level `levels` constant, whose `supports` and
`resistances` arrays are always empty, so `levels.supports[1]?.price ||
null` is `null` regardless of the input. -/
theorem claim_c10 (sqrtQ : ℚ → ℚ) (candles : List TA.Candle) (h : candles ≠ []) :
    (TA.performTechnicalAnalysis sqrtQ candles).supportResistance.support2 = none ∧
    (TA.performTechnicalAnalysis sqrtQ candles).supportResistance.resistance2 = none :=
  ⟨rfl, rfl⟩

/-- Witness for C10 at a concrete one-candle series. -/
theorem claim_c10_witness :
    ([⟨0, 1, 1, 1, 1, 1⟩] : List TA.Candle) ≠ [] ∧
    ((TA.performTechnicalAnalysis (fun _ => 0)
        [⟨0, 1, 1, 1, 1, 1⟩]).supportResistance.support2 = none ∧
     (TA.performTechnicalAnalysis (fun _ => 0)
        [⟨0, 1, 1, 1, 1, 1⟩]).supportResistance.resistance2 = none) :=
  ⟨List.cons_ne_nil _ _,
   claim_c10 (fun _ => 0) [⟨0, 1, 1, 1, 1, 1⟩] (List.cons_ne_nil _ _)⟩
